import Mathlib

/-!
# Verification of the NFC-IPS-FHIR codec pipeline and temporal-presentation algorithm

A shallow embedding, in Lean 4, of the codec pipeline of `script.js` and
`util/base64.js`: the base64 transport layer (`btoa` on encode,
`normaliseBase64`/`atob` on decode), the decompression-candidate builder
`attemptInflations`, the schema-negotiation decoder `decodeFragment` /
`tryDecode`, the transport encoder `encodeToFragment`, the temporal grouping
engine `createMISTChronologicalRows`, the FHIR-bundle to coded-reference
converter `convertFhirBundleToCodeRef`, the coded-reference display
normalisers (`normaliseCodeRef`, `normaliseCodeRefVitalsRaw`), and the
view-model summary builder `buildSummary`.

Modelling conventions:
* JavaScript byte values (`Uint8Array` entries) are `Nat` reduced mod 256
  where the source guarantees bytes.
* JavaScript strings are Lean `String`s; optional / possibly-`undefined`
  string fields are `Option String`, with `none` also standing for the falsy
  empty case where the source tests truthiness (noted at each site).
* Timestamp strings that the source immediately parses with `new Date(...)`
  are modelled by their parse result: an `Option Int` (milliseconds since
  epoch, `none` for an absent or unparseable stamp).  Calendar-date
  comparison (`formatDateForComparison`) becomes integer division by the
  number of milliseconds in a day (the source compares local-calendar-day
  equivalence classes; we fix the UTC offset).
* External vendored libraries (`pako` DEFLATE, `protobufjs`) are not part of
  `src/`; functions taking their place are explicit function parameters
  (`deflate`, `inflate`, `inflateRaw`) or, for the wire schema
  (`nfc_payload.proto`, absent from the sources), a serializer modelled from
  the specification (see `serializePayload`).
-/

namespace NFC



/-! ## JavaScript string helpers -/

/-- JavaScript truthiness-based `a || b` on optional strings: an absent value
or the empty string falls through to `b`. -/
def jsOrS (a b : Option String) : Option String :=
  match a with
  | some s => if s = "" then b else some s
  | none => b

/-- Whitespace characters recognised by the `\s` class used in
`normaliseBase64`'s `replace(/\s+/g, '')` (the common ASCII subset). -/
def isJsWhitespace (c : Char) : Bool :=
  c = ' ' || c = '\t' || c = '\n' || c = '\r' || c = '\x0b' || c = '\x0c'

/-! ## Base64 layer (`util/base64.js` and `btoa` in `encodeToFragment`) -/

/-- The standard RFC 4648 section-4 base64 alphabet used by `btoa`/`atob`. -/
def base64Alphabet : List Char :=
  "ABCDEFGHIJKLMNOPQRSTUVWXYZabcdefghijklmnopqrstuvwxyz0123456789+/".toList

/-- Character for a 6-bit group (index `n < 64`). -/
def b64Char (n : Nat) : Char := base64Alphabet.getD n 'A'

/-- Index of a character in the standard base64 alphabet, `none` when the
character is not in the alphabet (this is what makes `atob` throw). -/
def b64Index (c : Char) : Option Nat := base64Alphabet.findIdx? (· = c)

/-- `btoa`: the browser primitive used on the encode path of
`encodeToFragment`.  Encodes bytes three at a time into four standard-alphabet
characters, padding the final group with `'='`. -/
def btoaGo : List Nat → List Char
  | [] => []
  | [a] =>
      let a := a % 256
      [b64Char (a / 4), b64Char (a % 4 * 16), '=', '=']
  | [a, b] =>
      let a := a % 256
      let b := b % 256
      [b64Char (a / 4), b64Char (a % 4 * 16 + b / 16), b64Char (b % 16 * 4), '=']
  | a :: b :: c :: rest =>
      let a := a % 256
      let b := b % 256
      let c := c % 256
      b64Char (a / 4) :: b64Char (a % 4 * 16 + b / 16) ::
        b64Char (b % 16 * 4 + c / 64) :: b64Char (c % 64) :: btoaGo rest

/-- `btoa` as a `String` producer. -/
def btoa (bytes : List Nat) : String := String.mk (btoaGo bytes)

/-- `atob`: decodes four standard-alphabet characters at a time, accepting
`'='` padding only in the final group; any character outside the alphabet
(or a malformed length) fails, modelling the `InvalidCharacterError` throw. -/
def atobGo : List Char → Option (List Nat)
  | [] => some []
  | c1 :: c2 :: c3 :: c4 :: rest =>
      match b64Index c1, b64Index c2 with
      | some i1, some i2 =>
          if c3 = '=' then
            if c4 = '=' ∧ rest = [] then some [i1 * 4 + i2 / 16] else none
          else
            match b64Index c3 with
            | some i3 =>
                if c4 = '=' then
                  if rest = [] then
                    some [i1 * 4 + i2 / 16, i2 % 16 * 16 + i3 / 4]
                  else none
                else
                  match b64Index c4, atobGo rest with
                  | some i4, some tail =>
                      some ((i1 * 4 + i2 / 16) :: (i2 % 16 * 16 + i3 / 4) ::
                        (i3 % 4 * 64 + i4) :: tail)
                  | _, _ => none
            | none => none
      | _, _ => none
  | _ => none

/-- `normaliseBase64` from `util/base64.js`: strip whitespace, map the
URL-safe alphabet (`-`, `_`) onto the standard one (`+`, `/`), and pad with
`'='` to a multiple of four. -/
def normaliseBase64 (s : String) : String :=
  let cs := (s.toList.filter (fun c => !isJsWhitespace c)).map
    (fun c => if c = '-' then '+' else if c = '_' then '/' else c)
  let r := cs.length % 4
  String.mk (cs ++ List.replicate ((4 - r) % 4) '=')

/-- `base64ToUint8Array` from `util/base64.js`: normalise, then `atob` into
bytes; `none` models the `atob` throw on invalid input. -/
def base64ToUint8Array (value : String) : Option (List Nat) :=
  atobGo (normaliseBase64 value).toList

/-- The RFC 4648 section-5 URL-safe alphabet (`-`/`_` in place of `+`/`/`). -/
def base64UrlAlphabet : List Char :=
  "ABCDEFGHIJKLMNOPQRSTUVWXYZabcdefghijklmnopqrstuvwxyz0123456789-_".toList

/-- A string is an unpadded Base64URL word: every character is in the
URL-safe alphabet (in particular there is no `'+'`, `'/'` or `'='`). -/
def isBase64UrlNoPad (s : String) : Bool :=
  s.toList.all (fun c => base64UrlAlphabet.contains c)

/-! ### Base64 round-trip facts -/

/-! ## Spec-modelled wire serialization primitives

The wire schema (`nfc_payload.proto`) and the protobuf runtime are vendored
resources, not part of `src/`; the byte encoding below is modelled from the
specification: a protobuf-style compact binary encoding built on varints
(7-bit groups with a continuation bit), length-prefixed strings and lists,
and tagged optionals. -/

/-- Varint encoder worker; `fuel ≥ n` suffices for full precision. -/
def encVarintGo : Nat → Nat → List Nat
  | 0, n => [n % 128]
  | fuel + 1, n => if n < 128 then [n] else (n % 128 + 128) :: encVarintGo fuel (n / 128)

/-- Modelled from the spec: protobuf-style base-128 varint for unbounded
non-negative integers (length fields, character code points, timestamps). -/
def encVarint (n : Nat) : List Nat := encVarintGo n n

/-- Varint decoder: consumes continuation bytes (`≥ 128`) then one final
byte, returning the value and the unconsumed remainder. -/
def decVarint : List Nat → Option (Nat × List Nat)
  | [] => none
  | b :: rest =>
      if b < 128 then some (b, rest)
      else
        match decVarint rest with
        | some (m, r) => some (b - 128 + 128 * m, r)
        | none => none

/-- Modelled from the spec: a character is carried as the varint of its
Unicode code point. -/
def encChar (c : Char) : List Nat := encVarint c.toNat

def decChar (l : List Nat) : Option (Char × List Nat) :=
  match decVarint l with
  | some (n, r) => some (Char.ofNat n, r)
  | none => none

/-- Decode `k` consecutive records with the element decoder `dec`. -/
def decCount (dec : List Nat → Option (α × List Nat)) :
    Nat → List Nat → Option (List α × List Nat)
  | 0, l => some ([], l)
  | k + 1, l =>
      match dec l with
      | some (x, r) =>
          match decCount dec k r with
          | some (xs, r2) => some (x :: xs, r2)
          | none => none
      | none => none

/-- Modelled from the spec: repeated fields are a varint count followed by
the records back to back. -/
def encList (enc : α → List Nat) (xs : List α) : List Nat :=
  encVarint xs.length ++ (xs.map enc).flatten

def decList (dec : List Nat → Option (α × List Nat)) (l : List Nat) :
    Option (List α × List Nat) :=
  match decVarint l with
  | some (k, r) => decCount dec k r
  | none => none

/-- Modelled from the spec: strings are a character count followed by the
code points. -/
def encString (s : String) : List Nat := encList encChar s.toList

def decString (l : List Nat) : Option (String × List Nat) :=
  match decList decChar l with
  | some (cs, r) => some (String.mk cs, r)
  | none => none

/-- Modelled from the spec: optional fields carry a presence tag byte. -/
def encOpt (enc : α → List Nat) : Option α → List Nat
  | none => [0]
  | some x => 1 :: enc x

def decOpt (dec : List Nat → Option (α × List Nat)) : List Nat → Option (Option α × List Nat)
  | [] => none
  | b :: rest =>
      if b = 0 then some (none, rest)
      else
        match dec rest with
        | some (x, r) => some (some x, r)
        | none => none

/-- Modelled from the spec: signed values (doses, the creation stamp domain)
use zig-zag coding onto a varint. -/
def encInt (i : Int) : List Nat :=
  if 0 ≤ i then encVarint (2 * i.toNat) else encVarint (2 * (-i).toNat - 1)

def decInt (l : List Nat) : Option (Int × List Nat) :=
  match decVarint l with
  | some (n, r) =>
      if n % 2 = 0 then some ((n / 2 : Nat), r)
      else some (-((n + 1) / 2 : Nat), r)
  | none => none

/-! ## Wire data model (spec section 3 and section 6, current schema)

Modelled from the spec: the current wire schema (`nfc_payload.proto` is not
among the sources): a patient block, nine care-stage buckets each holding
repeated vitals/conditions/events, a repeated allergies list, an optional
bundle-metadata block, and an optional creation timestamp.  Numeric vitals
are floating point on the wire; the numeric carrier is modelled as `Int`
(IEEE floats are outside this embedding; the round-trip statements concern
field preservation and are independent of the carrier). -/

structure CodeRef where
  sys : String
  code : String
deriving DecidableEq

structure WireVital where
  code : CodeRef
  value : Int
  unit : String
  time : String
deriving DecidableEq

structure WireCondition where
  code : CodeRef
  onset : String
deriving DecidableEq

structure WireEvent where
  code : CodeRef
  time : String
  dose : Option Int
  unit : Option String
  route : Option String
deriving DecidableEq

structure WireAllergy where
  code : CodeRef
  category : String
  criticality : String
  recorded : String
  reaction : CodeRef
  severity : String
deriving DecidableEq

structure WireStage where
  vitals : List WireVital
  conditions : List WireCondition
  events : List WireEvent
deriving DecidableEq

structure WirePatient where
  given : String
  family : String
  rank : String
  title : String
  nationality : String
  dob : String
  gender : Option CodeRef
  blood_group : Option CodeRef
  nhs_id : Option CodeRef
  service_id : Option CodeRef
deriving DecidableEq

structure WireBundleMetadata where
  id : String
  meta_json : String
  identifier_json : String
  type : String
  timestamp : String
  composition_fullUrl : Option String
  composition_json : String
  entries_json : String
deriving DecidableEq

structure Payload where
  patient : WirePatient
  poi : WireStage
  casevac : WireStage
  axp : WireStage
  medevac : WireStage
  r1 : WireStage
  fwdTacevac : WireStage
  r2 : WireStage
  rearTacevac : WireStage
  r3 : WireStage
  allergies : List WireAllergy
  bundleMetadata : Option WireBundleMetadata
  t : Option Nat
deriving DecidableEq

/-! ### Field-by-field serializers (modelled from the spec) -/

def encCodeRef (c : CodeRef) : List Nat := encString c.sys ++ encString c.code

def decCodeRef (l : List Nat) : Option (CodeRef × List Nat) := do
  let (sys, l) ← decString l
  let (code, l) ← decString l
  pure (⟨sys, code⟩, l)

def encVital (v : WireVital) : List Nat :=
  encCodeRef v.code ++ encInt v.value ++ encString v.unit ++ encString v.time

def decVital (l : List Nat) : Option (WireVital × List Nat) := do
  let (code, l) ← decCodeRef l
  let (value, l) ← decInt l
  let (unit, l) ← decString l
  let (time, l) ← decString l
  pure (⟨code, value, unit, time⟩, l)

def encCondition (c : WireCondition) : List Nat :=
  encCodeRef c.code ++ encString c.onset

def decCondition (l : List Nat) : Option (WireCondition × List Nat) := do
  let (code, l) ← decCodeRef l
  let (onset, l) ← decString l
  pure (⟨code, onset⟩, l)

def encEvent (e : WireEvent) : List Nat :=
  encCodeRef e.code ++ encString e.time ++ encOpt encInt e.dose ++
    encOpt encString e.unit ++ encOpt encString e.route

def decEvent (l : List Nat) : Option (WireEvent × List Nat) := do
  let (code, l) ← decCodeRef l
  let (time, l) ← decString l
  let (dose, l) ← decOpt decInt l
  let (unit, l) ← decOpt decString l
  let (route, l) ← decOpt decString l
  pure (⟨code, time, dose, unit, route⟩, l)

def encAllergy (a : WireAllergy) : List Nat :=
  encCodeRef a.code ++ encString a.category ++ encString a.criticality ++
    encString a.recorded ++ encCodeRef a.reaction ++ encString a.severity

def decAllergy (l : List Nat) : Option (WireAllergy × List Nat) := do
  let (code, l) ← decCodeRef l
  let (category, l) ← decString l
  let (criticality, l) ← decString l
  let (recorded, l) ← decString l
  let (reaction, l) ← decCodeRef l
  let (severity, l) ← decString l
  pure (⟨code, category, criticality, recorded, reaction, severity⟩, l)

def encStage (s : WireStage) : List Nat :=
  encList encVital s.vitals ++ encList encCondition s.conditions ++
    encList encEvent s.events

def decStage (l : List Nat) : Option (WireStage × List Nat) := do
  let (vitals, l) ← decList decVital l
  let (conditions, l) ← decList decCondition l
  let (events, l) ← decList decEvent l
  pure (⟨vitals, conditions, events⟩, l)

def encPatient (p : WirePatient) : List Nat :=
  encString p.given ++ encString p.family ++ encString p.rank ++
    encString p.title ++ encString p.nationality ++ encString p.dob ++
    encOpt encCodeRef p.gender ++ encOpt encCodeRef p.blood_group ++
    encOpt encCodeRef p.nhs_id ++ encOpt encCodeRef p.service_id

def decPatient (l : List Nat) : Option (WirePatient × List Nat) := do
  let (given, l) ← decString l
  let (family, l) ← decString l
  let (rank, l) ← decString l
  let (title, l) ← decString l
  let (nationality, l) ← decString l
  let (dob, l) ← decString l
  let (gender, l) ← decOpt decCodeRef l
  let (blood_group, l) ← decOpt decCodeRef l
  let (nhs_id, l) ← decOpt decCodeRef l
  let (service_id, l) ← decOpt decCodeRef l
  pure (⟨given, family, rank, title, nationality, dob, gender, blood_group,
    nhs_id, service_id⟩, l)

def encBundleMetadata (m : WireBundleMetadata) : List Nat :=
  encString m.id ++ encString m.meta_json ++ encString m.identifier_json ++
    encString m.type ++ encString m.timestamp ++
    encOpt encString m.composition_fullUrl ++ encString m.composition_json ++
    encString m.entries_json

def decBundleMetadata (l : List Nat) : Option (WireBundleMetadata × List Nat) := do
  let (id, l) ← decString l
  let (meta_json, l) ← decString l
  let (identifier_json, l) ← decString l
  let (type, l) ← decString l
  let (timestamp, l) ← decString l
  let (composition_fullUrl, l) ← decOpt decString l
  let (composition_json, l) ← decString l
  let (entries_json, l) ← decString l
  pure (⟨id, meta_json, identifier_json, type, timestamp, composition_fullUrl,
    composition_json, entries_json⟩, l)

/-- Modelled from the spec: the full current-schema message, fields in a
fixed order. -/
def serializePayload (p : Payload) : List Nat :=
  encPatient p.patient ++ encStage p.poi ++ encStage p.casevac ++
    encStage p.axp ++ encStage p.medevac ++ encStage p.r1 ++
    encStage p.fwdTacevac ++ encStage p.r2 ++ encStage p.rearTacevac ++
    encStage p.r3 ++ encList encAllergy p.allergies ++
    encOpt encBundleMetadata p.bundleMetadata ++ encOpt encVarint p.t

def decNat (l : List Nat) : Option (Nat × List Nat) := decVarint l

def decPayloadFields (l : List Nat) : Option (Payload × List Nat) := do
  let (patient, l) ← decPatient l
  let (poi, l) ← decStage l
  let (casevac, l) ← decStage l
  let (axp, l) ← decStage l
  let (medevac, l) ← decStage l
  let (r1, l) ← decStage l
  let (fwdTacevac, l) ← decStage l
  let (r2, l) ← decStage l
  let (rearTacevac, l) ← decStage l
  let (r3, l) ← decStage l
  let (allergies, l) ← decList decAllergy l
  let (bundleMetadata, l) ← decOpt decBundleMetadata l
  let (t, l) ← decOpt decNat l
  pure (⟨patient, poi, casevac, axp, medevac, r1, fwdTacevac, r2, rearTacevac,
    r3, allergies, bundleMetadata, t⟩, l)

/-- Modelled from the spec: the current-schema parser; it accepts exactly a
whole serialized payload (protobuf decoding of a buffer consumes it fully). -/
def parsePayload (l : List Nat) : Option Payload :=
  match decPayloadFields l with
  | some (p, []) => some p
  | _ => none

/-! ## Transport decode pipeline (`script.js` lines 1684-1828) -/

inductive SchemaVersion
  | coderef
  | legacy
deriving DecidableEq

inductive TransportError
  | invalidBase64
  | unableToDecode
deriving DecidableEq

/-- `attemptInflations` (`script.js` 1684-1699): try `pako.inflate`; on
success keep its output, otherwise try `pako.inflateRaw` and keep its output
if it succeeds; always append the raw bytes as the final candidate.  The
inflaters are vendored `pako` functions and enter as parameters (`none`
models a throw). -/
def attemptInflations (inflate inflateRaw : List Nat → Option (List Nat))
    (bytes : List Nat) : List (List Nat) :=
  match inflate bytes with
  | some inflated => [inflated, bytes]
  | none =>
      match inflateRaw bytes with
      | some inflatedRaw => [inflatedRaw, bytes]
      | none => [bytes]

/-- `tryDecode` (`script.js` 1795-1805): walk the candidate buffers with one
payload type's decoder, returning the first successful decode, `none` when
every buffer fails (`decode b = none` models the protobuf decode throw; the
naming normalisation applied by `decodeWith` is the identity on the
canonical model). -/
def tryDecode (decode : List Nat → Option α) : List (List Nat) → Option α
  | [] => none
  | buffer :: buffers =>
      match decode buffer with
      | some result => some result
      | none => tryDecode decode buffers

/-- The schema-negotiation core of `decodeFragment` (`script.js` 1807-1828):
all candidate buffers are first tried against the current (`coderef`) schema,
and only if that yields nothing are they all tried against the legacy
schema; the result is tagged with the matching schema version. -/
def negotiateSchema (decodeCurrent decodeLegacy : List Nat → Option α)
    (buffers : List (List Nat)) : Except TransportError (α × SchemaVersion) :=
  match tryDecode decodeCurrent buffers with
  | some result => .ok (result, .coderef)
  | none =>
      match tryDecode decodeLegacy buffers with
      | some result => .ok (result, .legacy)
      | none => .error .unableToDecode

/-- `decodeFragment` (`script.js` 1807-1828): base64-decode the fragment,
build inflation candidates, then negotiate the schema. -/
def decodeFragment (inflate inflateRaw : List Nat → Option (List Nat))
    (decodeCurrent decodeLegacy : List Nat → Option α) (fragment : String) :
    Except TransportError (α × SchemaVersion) :=
  match base64ToUint8Array fragment with
  | none => .error .invalidBase64
  | some bytes =>
      negotiateSchema decodeCurrent decodeLegacy
        (attemptInflations inflate inflateRaw bytes)

/-- `encodeToFragment` (`script.js` 2590-2664), coded-reference path:
protobuf-serialize, `pako.deflate` (a parameter), then plain `btoa`. -/
def encodeToFragment (deflate : List Nat → List Nat) (p : Payload) : String :=
  btoa (deflate (serializePayload p))

/-! ## Spec-side reference definitions for the transport claims -/

/-- The candidate list described by the specification (claim C3's reading of
section 4.1): header inflate result, raw inflate result, and the raw bytes,
all three retained. -/
def attemptInflationsSpec (inflate inflateRaw : List Nat → Option (List Nat))
    (bytes : List Nat) : List (List Nat) :=
  (inflate bytes).toList ++ (inflateRaw bytes).toList ++ [bytes]

/-- The negotiation order described by the specification (claim C2's reading
of section 4.2): per candidate buffer, current schema first, then legacy,
advancing to the next buffer only when both fail. -/
def negotiateBufferMajor (decodeCurrent decodeLegacy : List Nat → Option α) :
    List (List Nat) → Except TransportError (α × SchemaVersion)
  | [] => .error .unableToDecode
  | buffer :: buffers =>
      match decodeCurrent buffer with
      | some result => .ok (result, .coderef)
      | none =>
          match decodeLegacy buffer with
          | some result => .ok (result, .legacy)
          | none => negotiateBufferMajor decodeCurrent decodeLegacy buffers

/-- A concrete coded-reference payload used to instantiate the transport
theorems on explicit inputs. -/

def samplePayload : Payload :=
  { patient :=
      { given := "Thomas", family := "Hodge", rank := "CPL", title := "Mr",
        nationality := "UK", dob := "1988-06-02",
        gender := some ⟨"sct", "248153007"⟩,
        blood_group := some ⟨"sct", "278152006"⟩,
        nhs_id := some ⟨"nhs", "4857773456"⟩,
        service_id := none },
    poi :=
      { vitals := [{ code := ⟨"loinc", "8867-4"⟩, value := 120, unit := "bpm",
                     time := "2025-09-15T10:07:00Z" }],
        conditions := [{ code := ⟨"sct", "125689001"⟩,
                         onset := "2025-09-15T10:00:00Z" }],
        events := [] },
    casevac := ⟨[], [], []⟩, axp := ⟨[], [], []⟩, medevac := ⟨[], [], []⟩,
    r1 := ⟨[], [], []⟩, fwdTacevac := ⟨[], [], []⟩, r2 := ⟨[], [], []⟩,
    rearTacevac := ⟨[], [], []⟩, r3 := ⟨[], [], []⟩,
    allergies := [], bundleMetadata := none, t := some 16900000 }

/-! ## Temporal grouping engine (`script.js` 408-526) -/

/-- The three data-type tags `createMISTChronologicalRows` attaches. -/
inductive MISTType
  | vitals
  | conditions
  | events
deriving DecidableEq

/-- A clinical item as the grouping engine reads it: the three timestamp
slots probed by `extractTimestamp` (modelled by their parse result in epoch
milliseconds, `none` for an absent or falsy field) plus the display
description. -/
structure MISTItem where
  time : Option Nat
  onset : Option Nat
  rawDateTime : Option Nat
  description : String
deriving DecidableEq

/-- An item tagged by the engine with its data type and display flags. -/
structure MISTTagged where
  item : MISTItem
  dataType : MISTType
  isFirstDisplayedInRow : Bool
  noTimestamp : Bool
deriving DecidableEq

/-- `extractTimestamp` (`script.js` 413-415): `item.time || item.onset ||
item.rawData?.dateTime || null`. -/
def extractTimestamp (it : MISTItem) : Option Nat :=
  it.time.or (it.onset.or it.rawDateTime)

/-- Days since the epoch to the civil Gregorian date `(year, month, day)`
(valid for non-negative epoch days, i.e. 1970 onwards). -/
def civilFromDays (days : Nat) : Nat × Nat × Nat :=
  let z := days + 719468
  let era := z / 146097
  let doe := z % 146097
  let yoe := (doe - doe / 1460 + doe / 36524 - doe / 146096) / 365
  let y := yoe + era * 400
  let doy := doe - (365 * yoe + yoe / 4 - yoe / 100)
  let mp := (5 * doy + 2) / 153
  let d := doy - (153 * mp + 2) / 5 + 1
  let m := if mp < 10 then mp + 3 else mp - 9
  (if m ≤ 2 then y + 1 else y, m, d)

/-- The full civil calendar date of a timestamp (UTC offset fixed): the
claim's "calendar date (ignoring time-of-day)". -/
def calendarDate (ts : Nat) : Nat × Nat × Nat := civilFromDays (ts / 86400000)

/-- `formatDateForComparison` (`script.js` 236-246) reduced to its
equivalence kernel.  The source compares the string `` `${day} ${month} ${year}` ``
where `day` is `getDate()`, `month` the short month name and `year` is
`getFullYear().toString().slice(-2)` — a TWO-DIGIT year.  Two timestamps
therefore compare equal exactly when they agree on day of month, month,
and year modulo 100: calendar dates exactly 100 years apart on the same
day and month share a key. -/
def dateKey (ts : Nat) : Nat × Nat × Nat :=
  match calendarDate ts with
  | (y, m, d) => (d, m, y % 100)

/-- The per-data-type last-seen-date cursors (`dateTrackingByType`), holding
`formatDateForComparison` keys. -/
structure DateCursors where
  vitals : Option (Nat × Nat × Nat)
  conditions : Option (Nat × Nat × Nat)
  events : Option (Nat × Nat × Nat)
deriving DecidableEq

def getCursor (cur : DateCursors) : MISTType → Option (Nat × Nat × Nat)
  | .vitals => cur.vitals
  | .conditions => cur.conditions
  | .events => cur.events

def setCursor (cur : DateCursors) : MISTType → Option (Nat × Nat × Nat) → DateCursors
  | .vitals, v => { cur with vitals := v }
  | .conditions, v => { cur with conditions := v }
  | .events, v => { cur with events := v }

/-- The row-first marking pass of `createMISTChronologicalRows` (forEach over
the sorted timestamped items): an item is marked and its type's cursor
advanced when its calendar date differs from that cursor. -/
def markByType (cur : DateCursors) : List MISTTagged → List MISTTagged
  | [] => []
  | t :: rest =>
      let currentDate := (extractTimestamp t.item).map dateKey
      if currentDate ≠ getCursor cur t.dataType then
        { t with isFirstDisplayedInRow := true } ::
          markByType (setCursor cur t.dataType currentDate) rest
      else
        { t with isFirstDisplayedInRow := false } :: markByType cur rest

/-- The untimestamped pass: only the first item (original order) is marked,
and every untimestamped item is flagged `noTimestamp`. -/
def markNoTimestamp : List MISTTagged → List MISTTagged
  | [] => []
  | t :: rest =>
      { t with isFirstDisplayedInRow := true, noTimestamp := true } ::
        rest.map (fun u => { u with isFirstDisplayedInRow := false, noTimestamp := true })

def tagWith (ty : MISTType) (its : List MISTItem) : List MISTTagged :=
  its.map (fun it => ⟨it, ty, false, false⟩)

/-- The combined tagged input list (`allData`). -/
def mistAllData (vitals conditions events : List MISTItem) : List MISTTagged :=
  tagWith .vitals vitals ++ tagWith .conditions conditions ++ tagWith .events events

def mistWithTimestamps (vitals conditions events : List MISTItem) : List MISTTagged :=
  (mistAllData vitals conditions events).filter
    (fun t => (extractTimestamp t.item).isSome)

def mistWithoutTimestamps (vitals conditions events : List MISTItem) : List MISTTagged :=
  (mistAllData vitals conditions events).filter
    (fun t => !(extractTimestamp t.item).isSome)

/-- The JavaScript sort comparator `new Date(ts a) - new Date(ts b)` on the
timestamped sublist. -/
def mistLE (a b : MISTTagged) : Prop :=
  (extractTimestamp a.item).getD 0 ≤ (extractTimestamp b.item).getD 0

instance : DecidableRel mistLE := fun a b =>
  inferInstanceAs
    (Decidable ((extractTimestamp a.item).getD 0 ≤ (extractTimestamp b.item).getD 0))

instance : IsTotal MISTTagged mistLE :=
  ⟨fun a b =>
    Nat.le_total ((extractTimestamp a.item).getD 0) ((extractTimestamp b.item).getD 0)⟩

instance : IsTrans MISTTagged mistLE :=
  ⟨fun _ _ _ hab hbc => Nat.le_trans hab hbc⟩

def mistSorted (vitals conditions events : List MISTItem) : List MISTTagged :=
  List.insertionSort mistLE (mistWithTimestamps vitals conditions events)

/-- `createMISTChronologicalRows` (`script.js` 417-526): tag, partition by
timestamp presence, sort the timestamped items chronologically, mark
row-firstness per data type, mark the untimestamped tail, and concatenate
(timestamped first, untimestamped appended after). -/
def createMISTChronologicalRows (vitals conditions events : List MISTItem) :
    List MISTTagged :=
  markByType ⟨none, none, none⟩ (mistSorted vitals conditions events) ++
    markNoTimestamp (mistWithoutTimestamps vitals conditions events)

/-- The chronological-output relation of claim C5 between two items: if both
are timestamped the first is no later than the second, and no untimestamped
item precedes a timestamped one. -/
def chronOrderI (x y : MISTItem) : Prop :=
  (∀ ta tb, extractTimestamp x = some ta → extractTimestamp y = some tb → ta ≤ tb) ∧
  (extractTimestamp x = none → extractTimestamp y = none)

def chronOrder (a b : MISTTagged) : Prop := chronOrderI a.item b.item

/-- The date comparison key of a tagged item, `none` when untimestamped. -/
def itemDate (t : MISTTagged) : Option (Nat × Nat × Nat) :=
  (extractTimestamp t.item).map dateKey

/-- The claim's reading of the cursor: the calendar date of the last item of
the given data type in the walked prefix, else the incoming cursor value. -/
def lastDateOfType (cur : DateCursors) (ty : MISTType) (l : List MISTTagged) :
    Option (Nat × Nat × Nat) :=
  match (l.filter (fun t => decide (t.dataType = ty))).getLast? with
  | some t => itemDate t
  | none => getCursor cur ty

/-- A vital at 10:00 on 2024-01-15 (epoch milliseconds). -/
def mistSampleVitals : List MISTItem :=
  [{ time := some 1705312800000, onset := none, rawDateTime := none,
     description := "HR 72" }]

/-- A condition with onset 11:00 the same calendar day. -/
def mistSampleConditions : List MISTItem :=
  [{ time := none, onset := some 1705316400000, rawDateTime := none,
     description := "Laceration" }]

/-- Two vitals on a 15th of January 100 years apart (2024-01-15T10:00Z and
2124-01-15T10:00Z): distinct calendar dates sharing the `"15 Jan 24"`
comparison key. -/
def c4cVitals : List MISTItem :=
  [{ time := some 1705312800000, onset := none, rawDateTime := none,
     description := "HR 72" },
   { time := some 4860986400000, onset := none, rawDateTime := none,
     description := "HR 80" }]

/-! ## FHIR bundle → coded-reference conversion (`script.js` 1833-2260)

The FHIR resource model below carries exactly the fields the converters
read; deep optional-chain paths of the source (`identifier.type?.coding?.[0]?.code`,
`dosage?.dose?.value`, `reaction?.[0]?.manifestation?.[0]?.coding?.[0]?.code`, …)
are modelled as single projection fields named after the path.  `Option`
models an absent (`undefined`) field; for array-valued fields that the
source guards with a truthiness test (`if (patient.extension)`), the outer
`Option` distinguishes an absent field from an empty array. -/

/-- A string field read with a default: JavaScript `a || d` (both `undefined`
and the empty string fall through to the default). -/
def jsStrOr (a : Option String) (d : String) : String :=
  match a with
  | some s => if s = "" then d else s
  | none => d

structure FhirCoding where
  system : Option String := none
  code : Option String := none
deriving DecidableEq

structure FhirCodeableConcept where
  coding : List FhirCoding := []
deriving DecidableEq

structure FhirExtension where
  url : Option String := none
  valueCode : Option String := none
  valueString : Option String := none
  value : Option String := none
  valueCodeableConcept : Option FhirCodeableConcept := none
deriving DecidableEq

structure FhirIdentifier where
  typeCoding0Code : Option String := none
  value : Option String := none
deriving DecidableEq

structure FhirHumanName where
  given : List String := []
  family : Option String := none
  prefixes : List String := []
deriving DecidableEq

structure FhirQuantity where
  value : Option Int := none
deriving DecidableEq

structure FhirComponent where
  codeCoding0Code : Option String := none
  valueQuantity : Option FhirQuantity := none
deriving DecidableEq

structure FhirResource where
  resourceType : String := ""
  name : List FhirHumanName := []
  birthDate : Option String := none
  gender : Option String := none
  identifier : List FhirIdentifier := []
  extension : Option (List FhirExtension) := none
  categoryCoding0Code : Option String := none
  code : Option FhirCodeableConcept := none
  onsetDateTime : Option String := none
  effectiveDateTime : Option String := none
  valueQuantity : Option FhirQuantity := none
  component : Option (List FhirComponent) := none
  medicationCodeableConcept : Option FhirCodeableConcept := none
  dosageDoseValue : Option Int := none
  dosageDoseUnit : Option String := none
  dosageRouteCodingDisplay : Option String := none
  dosageRouteText : Option String := none
  dosageRouteCodingCode : Option String := none
  performedDateTime : Option String := none
  performedString : Option String := none
  note : List String := []
  bodySite0Display : Option String := none
  bodySite0Text : Option String := none
  category : List String := []
  criticality : Option String := none
  recordedDate : Option String := none
  reactionManifestationCode : Option String := none
  reactionSeverity : Option String := none
deriving DecidableEq

structure FhirEntry where
  fullUrl : Option String := none
  resource : Option FhirResource := none
deriving DecidableEq

structure FhirBundle where
  id : Option String := none
  meta : Option String := none
  identifier : Option String := none
  type : Option String := none
  timestamp : Option String := none
  entry : List FhirEntry := []
deriving DecidableEq

/-- A conversion-side code reference: `{ sys, code }` whose `code` slot is
copied verbatim from an optional source field and may be `undefined`. -/
structure JsCodeRef where
  sys : String
  code : Option String
deriving DecidableEq

inductive CRDose
  | num (n : Int)
  | str (s : String)
deriving DecidableEq

structure CRCondition where
  code : CodeRef
  onset : String
deriving DecidableEq

structure CRVital where
  code : CodeRef
  time : String
  value : Option Int
deriving DecidableEq

structure CREvent where
  code : CodeRef
  time : String
  dose : CRDose
  unit : String
  route : String
deriving DecidableEq

structure CRAllergy where
  code : CodeRef
  category : String
  criticality : String
  recorded : String
  reaction : String
  severity : String
deriving DecidableEq

structure CRStage where
  vitals : List CRVital := []
  conditions : List CRCondition := []
  events : List CREvent := []
deriving DecidableEq

structure CRPatient where
  given : String
  family : String
  rank : String
  title : String
  nationality : String
  dob : String
  nhs_id : Option JsCodeRef := none
  service_id : Option JsCodeRef := none
  gender : Option JsCodeRef := none
  blood_group : Option JsCodeRef := none
deriving DecidableEq

/-- Preserved bundle metadata; `JSON.stringify` of the opaque blocks is
modelled as verbatim retention of the block. -/
structure CRBundleMetadata where
  id : String
  meta_json : Option String
  identifier_json : Option String
  type : String
  timestamp : String
  composition_fullUrl : Option String
  composition_json : Option FhirResource
  entries_json : List FhirEntry
deriving DecidableEq

structure CRPayload where
  patient : CRPatient
  allergies : List CRAllergy := []
  bundleMetadata : CRBundleMetadata
  poi : CRStage := {}
  casevac : CRStage := {}
  axp : CRStage := {}
  medevac : CRStage := {}
  r1 : CRStage := {}
  fwdTacevac : CRStage := {}
  r2 : CRStage := {}
  rearTacevac : CRStage := {}
  r3 : CRStage := {}
  t : Int
deriving DecidableEq

inductive ConvError
  | missingPatient
  | typeError
deriving DecidableEq

/-! ### String helpers used by the converters -/

def listHasPrefixB : List Char → List Char → Bool
  | [], _ => true
  | _ :: _, [] => false
  | p :: ps, c :: cs => p == c && listHasPrefixB ps cs

def listHasSub (pat : List Char) : List Char → Bool
  | [] => listHasPrefixB pat []
  | c :: cs => listHasPrefixB pat (c :: cs) || listHasSub pat cs

/-- JavaScript `s.includes(pat)`. -/
def hasSubstr (s pat : String) : Bool := listHasSub pat.toList s.toList

/-- JavaScript `String.prototype.trim`. -/
def jsTrim (s : String) : String :=
  String.mk (((s.toList.dropWhile isJsWhitespace).reverse.dropWhile
    isJsWhitespace).reverse)

/-- `replace(/\s+/g, '')`. -/
def stripSpaces (s : String) : String :=
  String.mk (s.toList.filter (fun c => !isJsWhitespace c))

/-- `String.prototype.toLowerCase` (ASCII range, the range the care-stage
labels use). -/
def jsToLower (s : String) : String := String.mk (s.toList.map Char.toLower)

/-- `normalizeRouteDisplay` (`script.js` 365-369): trim, then strip a
trailing case-insensitive "route" word together with the whitespace before
it. -/
def normalizeRouteDisplay (routeValue : String) : String :=
  if routeValue = "" then ""
  else
    let cs := (jsTrim routeValue).toList
    let rev := cs.reverse
    if (rev.take 5).map Char.toLower = "etuor".toList then
      String.mk (((rev.drop 5).dropWhile isJsWhitespace).reverse)
    else
      String.mk cs

/-- `extractSystem` (`script.js` 2200-2204). -/
def extractSystem (systemUrl : Option String) : String :=
  match systemUrl with
  | none => "unknown"
  | some url =>
      if hasSubstr url "snomed" then "sct"
      else if hasSubstr url "loinc" then "loinc"
      else "unknown"

/-! ### Care-stage normalisation (`script.js` 2072-2114) -/

def CARE_STAGE_VALUE_MAP : List (String × String) :=
  [("poi", "poi"), ("casevac", "casevac"), ("axp", "axp"),
   ("mevac", "medevac"), ("medevac", "medevac"), ("r1", "r1"),
   ("fwdtacevac", "fwdTacevac"), ("fwd-tacevac", "fwdTacevac"),
   ("forwardtacevac", "fwdTacevac"), ("forward-tacevac", "fwdTacevac"),
   ("fwd tacevac", "fwdTacevac"), ("r2", "r2"),
   ("reartacevac", "rearTacevac"), ("rear-tacevac", "rearTacevac"),
   ("rear tacevac", "rearTacevac"), ("r3", "r3")]

def lookupStage (key : String) : Option String :=
  (CARE_STAGE_VALUE_MAP.find? (fun kv => kv.1 = key)).map (·.2)

/-- `normaliseCareStageValue` (`script.js` 2086-2093): map the trimmed raw
value, else its lower-cased space-stripped form, through the label map; an
unrecognised non-empty value is returned as the raw trimmed string. -/
def normaliseCareStageValue (rawValue : Option String) : Option String :=
  match rawValue with
  | none => none
  | some v =>
      if v = "" then none
      else
        let trimmed := jsTrim v
        match lookupStage trimmed with
        | some direct => some direct
        | none =>
            match lookupStage (stripSpaces (jsToLower trimmed)) with
            | some mapped => some mapped
            | none => some trimmed

def CARE_STAGE_URL : String := "http://example.org/fhir/StructureDefinition/care-stage"

/-- The blood-group extension slot: `FHIR_EXTENSIONS.PATIENT_BLOOD_GROUP` is
not a key of `FHIR_EXTENSIONS` in `config/constants.js`, so the comparison
target is `undefined`. -/
def PATIENT_BLOOD_GROUP_URL : Option String := none

/-- `getCareStageFromExtension` (`script.js` 2095-2114). -/
def getCareStageFromExtension (resource : FhirResource) : Option String :=
  match resource.extension with
  | none => none
  | some exts =>
      match exts.find? (fun ext => ext.url == some CARE_STAGE_URL) with
      | none => none
      | some careStageExt =>
          normaliseCareStageValue
            (jsOrS careStageExt.valueCode
              (jsOrS careStageExt.valueString careStageExt.value))

/-! ### Per-resource converters (`script.js` 2116-2199) -/

def convertConditionToCodeRef (now : String) (condition : FhirResource) : CRCondition :=
  let coding0 := condition.code.bind (fun cc => cc.coding.head?)
  { code := { sys := extractSystem (coding0.bind (·.system)),
              code := jsStrOr (coding0.bind (·.code)) "unknown" },
    onset := jsStrOr condition.onsetDateTime now }

def convertObservationToCodeRef (now : String) (observation : FhirResource) : CRVital :=
  let coding0 := observation.code.bind (fun cc => cc.coding.head?)
  let value : Option Int :=
    match observation.valueQuantity with
    | some q => q.value
    | none =>
        match observation.component with
        | some comps =>
            match comps.find? (fun comp => comp.codeCoding0Code == some "8480-6") with
            | some systolic => systolic.valueQuantity.bind (·.value)
            | none => none
        | none => none
  { code := { sys := extractSystem (coding0.bind (·.system)),
              code := jsStrOr (coding0.bind (·.code)) "unknown" },
    time := jsStrOr observation.effectiveDateTime now,
    value := value }

def convertMedicationToCodeRef (now : String) (medication : FhirResource) : CREvent :=
  let coding0 := medication.medicationCodeableConcept.bind (fun cc => cc.coding.head?)
  { code := { sys := extractSystem (coding0.bind (·.system)),
              code := jsStrOr (coding0.bind (·.code)) "unknown" },
    time := jsStrOr medication.effectiveDateTime now,
    dose := .num (medication.dosageDoseValue.getD 0),
    unit := jsStrOr medication.dosageDoseUnit "",
    route := normalizeRouteDisplay
      (jsStrOr (jsOrS medication.dosageRouteCodingDisplay
        (jsOrS medication.dosageRouteText medication.dosageRouteCodingCode)) "") }

def convertProcedureToCodeRef (now : String) (procedure : FhirResource) : CREvent :=
  let coding0 := procedure.code.bind (fun cc => cc.coding.head?)
  { code := { sys := extractSystem (coding0.bind (·.system)),
              code := jsStrOr (coding0.bind (·.code)) "unknown" },
    time := jsStrOr procedure.performedDateTime now,
    dose := .str (jsStrOr procedure.note.head? ""),
    unit := "",
    route := normalizeRouteDisplay
      (jsStrOr (jsOrS procedure.bodySite0Display
        (jsOrS procedure.bodySite0Text procedure.performedString)) "Manual") }

def convertAllergyToCodeRef (now : String) (allergy : FhirResource) : CRAllergy :=
  let coding0 := allergy.code.bind (fun cc => cc.coding.head?)
  { code := { sys := extractSystem (coding0.bind (·.system)),
              code := jsStrOr (coding0.bind (·.code)) "unknown" },
    category := jsStrOr allergy.category.head? "unknown",
    criticality := jsStrOr allergy.criticality "unknown",
    recorded := jsStrOr allergy.recordedDate now,
    reaction := jsStrOr allergy.reactionManifestationCode "unknown",
    severity := jsStrOr allergy.reactionSeverity "unknown" }

/-! ### Bundle conversion proper (`script.js` 2012-2070) -/

def stageGet (p : CRPayload) (key : String) : Option CRStage :=
  if key = "poi" then some p.poi
  else if key = "casevac" then some p.casevac
  else if key = "axp" then some p.axp
  else if key = "medevac" then some p.medevac
  else if key = "r1" then some p.r1
  else if key = "fwdTacevac" then some p.fwdTacevac
  else if key = "r2" then some p.r2
  else if key = "rearTacevac" then some p.rearTacevac
  else if key = "r3" then some p.r3
  else none

def stageSet (p : CRPayload) (key : String) (st : CRStage) : CRPayload :=
  if key = "poi" then { p with poi := st }
  else if key = "casevac" then { p with casevac := st }
  else if key = "axp" then { p with axp := st }
  else if key = "medevac" then { p with medevac := st }
  else if key = "r1" then { p with r1 := st }
  else if key = "fwdTacevac" then { p with fwdTacevac := st }
  else if key = "r2" then { p with r2 := st }
  else if key = "rearTacevac" then { p with rearTacevac := st }
  else if key = "r3" then { p with r3 := st }
  else p

/-- `payload[careStage].<kind>.push(item)`: accessing a property of
`undefined` throws `TypeError` when `careStage` is not one of the nine stage
keys of the payload object. -/
def pushToStage (p : CRPayload) (key : String) (f : CRStage → CRStage) :
    Except ConvError CRPayload :=
  match stageGet p key with
  | some st => .ok (stageSet p key (f st))
  | none => .error .typeError

/-- One iteration of the `bundle.entry.forEach` classification loop. -/
def addResource (now : String) (payload : CRPayload) (entry : FhirEntry) :
    Except ConvError CRPayload :=
  match entry.resource with
  | none => .ok payload
  | some resource =>
      if resource.resourceType = "AllergyIntolerance" then
        .ok { payload with
          allergies := payload.allergies ++ [convertAllergyToCodeRef now resource] }
      else
        match getCareStageFromExtension resource with
        | none => .ok payload
        | some careStage =>
            if careStage = "" then .ok payload
            else if resource.resourceType = "Condition" then
              pushToStage payload careStage (fun st =>
                { st with conditions :=
                    st.conditions ++ [convertConditionToCodeRef now resource] })
            else if resource.resourceType = "Observation" &&
                resource.categoryCoding0Code == some "vital-signs" then
              pushToStage payload careStage (fun st =>
                { st with vitals :=
                    st.vitals ++ [convertObservationToCodeRef now resource] })
            else if resource.resourceType = "MedicationAdministration" then
              pushToStage payload careStage (fun st =>
                { st with events :=
                    st.events ++ [convertMedicationToCodeRef now resource] })
            else if resource.resourceType = "Procedure" then
              pushToStage payload careStage (fun st =>
                { st with events :=
                    st.events ++ [convertProcedureToCodeRef now resource] })
            else .ok payload

/-- `convertFhirBundleToCodeRef` (`script.js` 2012-2070): locate the patient
resource (fatal when absent), convert demographics / identifiers / gender /
blood-group extension, preserve the bundle metadata verbatim, then classify
every clinical resource into its care-stage bucket.  `now` stands for
`new Date().toISOString()` and `nowMs` for `Date.now()`. -/
def convertFhirBundleToCodeRef (now : String) (nowMs : Int) (bundle : FhirBundle) :
    Except ConvError CRPayload :=
  match bundle.entry.find? (fun e =>
      match e.resource with
      | some r => r.resourceType == "Patient"
      | none => false) with
  | none => .error .missingPatient
  | some patientEntry =>
      match patientEntry.resource with
      | none => .error .missingPatient
      | some patient =>
          let name0 := patient.name.head?
          let base : CRPatient :=
            { given := jsStrOr (name0.bind (fun n => n.given.head?)) "",
              family := jsStrOr (name0.bind (·.family)) "",
              rank := jsStrOr (name0.bind (fun n => n.prefixes.head?)) "",
              title := "Mr",
              nationality := "UK",
              dob := jsStrOr patient.birthDate "" }
          let withIds := patient.identifier.foldl (fun acc ident =>
            if ident.typeCoding0Code == some "NH" then
              { acc with nhs_id := some ⟨"nhs", ident.value⟩ }
            else if ident.typeCoding0Code == some "MIL" then
              { acc with service_id := some ⟨"mil", ident.value⟩ }
            else acc) base
          let withGender :=
            match patient.gender with
            | none => withIds
            | some g =>
                if g = "" then withIds
                else if g = "male" then
                  { withIds with gender := some ⟨"sct", some "248153007"⟩ }
                else if g = "female" then
                  { withIds with gender := some ⟨"sct", some "248152002"⟩ }
                else { withIds with gender := none }
          let convertedPatient :=
            match patient.extension with
            | none => withGender
            | some exts =>
                match exts.find? (fun ext => ext.url == PATIENT_BLOOD_GROUP_URL) with
                | none => withGender
                | some bloodGroupExt =>
                    match bloodGroupExt.valueCodeableConcept.bind
                        (fun cc => cc.coding.head?) with
                    | none => withGender
                    | some coding =>
                        { withGender with blood_group := some ⟨"sct", coding.code⟩ }
          let compositionEntry := bundle.entry.find? (fun e =>
            match e.resource with
            | some r => r.resourceType == "Composition"
            | none => false)
          let bundleMetadata : CRBundleMetadata :=
            { id := jsStrOr bundle.id "",
              meta_json := bundle.meta,
              identifier_json := bundle.identifier,
              type := jsStrOr bundle.type "document",
              timestamp := jsStrOr bundle.timestamp now,
              composition_fullUrl := compositionEntry.bind (·.fullUrl),
              composition_json := compositionEntry.bind (·.resource),
              entries_json := bundle.entry }
          let payloadInit : CRPayload :=
            { patient := convertedPatient,
              allergies := [],
              bundleMetadata := bundleMetadata,
              t := nowMs }
          bundle.entry.foldlM (addResource now) payloadInit

/-- `convertFhirToCodeRef` (`script.js` 1831-1910) on a bundle input: the
function returns the bundle conversion immediately; the blood-group
fallback at `script.js` 1896-1899 runs only on the non-bundle path, after
this early return. -/
def convertFhirToCodeRefOnBundle (now : String) (nowMs : Int) (bundle : FhirBundle) :
    Except ConvError CRPayload :=
  convertFhirBundleToCodeRef now nowMs bundle

/-- The blood-group fallback of `convertFhirToCodeRef` (`script.js`
1896-1899), reachable only on the non-bundle path. -/
def bloodGroupFallback (blood_group : Option JsCodeRef) : Option JsCodeRef :=
  match blood_group with
  | none => some ⟨"sct", some "278152006"⟩
  | some c => some c

/-! ## Coded-reference display normalisers (`script.js` 748-777, 3558-3577) -/

/-- The raw `{sys, code}` object attached to a decoded stage item; either
slot may be `undefined` or empty. -/
structure RawCodeRef where
  sys : Option String := none
  code : Option String := none
deriving DecidableEq

/-- `normaliseCodeRef`'s output `{system, code, ref}`. -/
structure NormCodeRef where
  system : String
  code : String
  ref : String
deriving DecidableEq

/-- `codeRefKey` (`script.js` 748-753). -/
def codeRefKey (codeRef : Option RawCodeRef) : String :=
  match codeRef with
  | none => ""
  | some c =>
      let system := jsStrOr c.sys ""
      let code := jsStrOr c.code ""
      if system = "" then code else system ++ ":" ++ code

/-- `normaliseCodeRef` (`script.js` 768-777): an absent code ref, or one
with an empty key, falls back to `Code #<fallbackIndex>` when a fallback
index is passed and to `Unknown code` otherwise. -/
def normaliseCodeRef (codeRef : Option RawCodeRef) (fallbackIndex : Option Nat) :
    NormCodeRef :=
  match codeRef with
  | none =>
      let fallback :=
        match fallbackIndex with
        | some i => "Code #" ++ toString i
        | none => "Unknown code"
      { system := "", code := fallback, ref := fallback }
  | some c =>
      let key := codeRefKey codeRef
      let ref :=
        if key = "" then
          match fallbackIndex with
          | some i => "Code #" ++ toString i
          | none => "Unknown code"
        else key
      { system := jsStrOr c.sys "", code := jsStrOr c.code "", ref := ref }

/-- An entry of a decoded stage's `vitals` array as
`normaliseCodeRefVitalsRaw` reads it; the outer `Option` models a `null`
entry (the `!item` guard). -/
structure CRRawVitalEntry where
  code : Option RawCodeRef := none
  value : Option Int := none
  unit : Option String := none
  route : Option String := none
  time : Option String := none
deriving DecidableEq

/-- The record the Raw normalisers build per kept item. -/
structure CRDisplayItem where
  code : NormCodeRef
  description : String
  value : Option Int
  unit : Option String
  dose : Option Int
  route : Option String
  time : Option String
  onset : Option String
deriving DecidableEq

/-- `normaliseCodeRefVitalsRaw` (`script.js` 3558-3577): map each entry —
`null` when the entry or its code is missing — then `filter(Boolean)`.
`resolve` stands for the external `resolveCodeDisplay`. -/
def normaliseCodeRefVitalsRaw (resolve : String → String → String)
    (entries : List (Option CRRawVitalEntry)) : List CRDisplayItem :=
  (entries.map (fun item =>
    match item with
    | none => none
    | some it =>
        match it.code with
        | none => none
        | some _ =>
            let code := normaliseCodeRef it.code none
            some { code := code, description := resolve code.system code.code,
                   value := it.value, unit := it.unit, dose := none,
                   route := it.route, time := it.time, onset := none })).filterMap id

/-! ## View-model summary builder (`script.js` 3684-3736) -/

structure R2Vital where
  time : Option Int
deriving DecidableEq

structure R2Condition where
  onset : Option Int
deriving DecidableEq

structure R2Event where
  time : Option Int
deriving DecidableEq

structure R2Stage where
  vitals : List R2Vital := []
  conditions : List R2Condition := []
  events : List R2Event := []
deriving DecidableEq

/-- The payload-level creation field `t` as `buildSummary` inspects it: a
number, a string (carried as its `new Date` parse result), or absent. -/
inductive PayloadT
  | absent
  | num (n : Int)
  | str (parsed : Option Int)
deriving DecidableEq

structure SummaryPayload where
  r2 : Option R2Stage := none
  t : PayloadT := .absent
deriving DecidableEq

/-- The `allTimes` collection: role-2 vitals times, conditions onsets and
events times (each pushed only when present, invalid dates filtered —
both are `none` in the parsed model). -/
def r2AllTimes (s : R2Stage) : List Int :=
  s.vitals.filterMap (·.time) ++ s.conditions.filterMap (·.onset) ++
    s.events.filterMap (·.time)

/-- `Math.max(...validTimes)` guarded by `validTimes.length > 0`. -/
def listMax : List Int → Option Int
  | [] => none
  | x :: xs =>
      match listMax xs with
      | none => some x
      | some m => some (max x m)

/-- JavaScript `Date` validity: at most 8 640 000 000 000 000 ms from the
epoch. -/
def jsDateValid (ms : Int) : Bool := ms.natAbs ≤ 8640000000000000

/-- The summary-timestamp derivation of `buildSummary` (`script.js`
3684-3736): the latest role-2 timestamp advanced by 15 minutes
(`setMinutes(getMinutes() + 15)`), else `payload.t` as epoch minutes when a
number, as a date string when a string. -/
def buildSummaryTimestamp (payload : SummaryPayload) : Option Int :=
  let latestTimestamp : Option Int :=
    match payload.r2 with
    | none => none
    | some r2Stage => (listMax (r2AllTimes r2Stage)).map (fun m => m + 15 * 60000)
  match latestTimestamp with
  | some ts => some ts
  | none =>
      match payload.t with
      | .num n => if jsDateValid (n * 60000) then some (n * 60000) else none
      | .str parsed => parsed
      | .absent => none

/-! ## Concrete inputs for the conversion and summary claims -/

def c6PatientResource : FhirResource :=
  { resourceType := "Patient",
    name := [{ given := ["Thomas"], family := some "Hodge", prefixes := ["CPL"] }],
    birthDate := some "1988-06-02",
    gender := some "male",
    identifier := [{ typeCoding0Code := some "NH", value := some "4857773456" }] }

/-- A bundle whose patient resource carries no extensions at all — in
particular no blood-group extension. -/
def c6Bundle : FhirBundle :=
  { id := some "ips-bundle-1", type := some "document",
    timestamp := some "2024-01-01T00:00:00Z",
    entry := [{ fullUrl := some "urn:uuid:patient-example",
                resource := some c6PatientResource }] }

/-- A clinical resource whose care-stage extension carries the unrecognised
label `"hospital"`. -/
def c10ConditionResource : FhirResource :=
  { resourceType := "Condition",
    code := some { coding := [{ system := some "http://snomed.info/sct",
                                code := some "125689001" }] },
    onsetDateTime := some "2024-01-01T10:00:00Z",
    extension := some [{ url := some CARE_STAGE_URL, valueCode := some "hospital" }] }

def c10Bundle : FhirBundle :=
  { entry := [{ fullUrl := some "urn:uuid:patient-example",
                resource := some c6PatientResource },
              { fullUrl := some "urn:uuid:condition-1",
                resource := some c10ConditionResource }] }

def c7Entries : List (Option CRRawVitalEntry) :=
  [some { code := none, value := some 120, unit := some "bpm",
          time := some "2024-01-15T10:00:00Z" },
   some { code := some { sys := some "sct", code := some "123" },
          value := some 98 }]

def c9Stage : R2Stage :=
  { vitals := [⟨some 1705315000000⟩],
    conditions := [⟨some 1705316400000⟩],
    events := [⟨none⟩] }

def c9Payload : SummaryPayload := { r2 := some c9Stage, t := .num 16900000 }

/-- An empty coded-reference payload, used to probe the stage-bucket lookup. -/
def c10PayloadProbe : CRPayload :=
  { patient := { given := "", family := "", rank := "", title := "",
                 nationality := "", dob := "" },
    bundleMetadata := { id := "", meta_json := none, identifier_json := none,
                        type := "document", timestamp := "",
                        composition_fullUrl := none, composition_json := none,
                        entries_json := [] },
    t := 0 }

/-! ## Theorems for the conversion, normaliser and summary claims -/

/-! ## Theorems -/

theorem b64Index_b64Char {n : Nat} (h : n < 64) : b64Index (b64Char n) = some n := by
  interval_cases n <;> rfl

theorem b64Char_ne_pad {n : Nat} (h : n < 64) : ¬(b64Char n = '=') := by
  interval_cases n <;> simp [b64Char, base64Alphabet]

theorem splitDigit {y k : Nat} (x : Nat) (hk : 0 < k) (hy : y < k) :
    (x * k + y) / k = x ∧ (x * k + y) % k = y := by
  constructor
  · rw [Nat.mul_comm x k, Nat.mul_add_div hk, Nat.div_eq_of_lt hy, Nat.add_zero]
  · rw [Nat.mul_comm x k, Nat.mul_add_mod, Nat.mod_eq_of_lt hy]

theorem atobGo_btoaGo (bs : List Nat) (h : ∀ b ∈ bs, b < 256) :
    atobGo (btoaGo bs) = some bs := by
  induction bs using btoaGo.induct with
  | case1 => simp [btoaGo, atobGo]
  | case2 a =>
      have ha : a < 256 := h a (by simp)
      have h1 : a / 4 < 64 := by omega
      have h2 : a % 4 * 16 < 64 := by omega
      simp only [btoaGo, Nat.mod_eq_of_lt ha]
      simp [atobGo, b64Index_b64Char h1, b64Index_b64Char h2,
        Nat.mul_div_cancel _ (show (0:Nat) < 16 by norm_num)]
      omega
  | case3 a b =>
      have ha : a < 256 := h a (by simp)
      have hb : b < 256 := h b (by simp)
      have h1 : a / 4 < 64 := by omega
      have h2 : a % 4 * 16 + b / 16 < 64 := by omega
      have h3 : b % 16 * 4 < 64 := by omega
      simp only [btoaGo, Nat.mod_eq_of_lt ha, Nat.mod_eq_of_lt hb]
      simp [atobGo, b64Index_b64Char h1, b64Index_b64Char h2,
        b64Index_b64Char h3, b64Char_ne_pad h3,
        (splitDigit (a % 4) (by norm_num) (show b / 16 < 16 by omega)).1,
        (splitDigit (a % 4) (by norm_num) (show b / 16 < 16 by omega)).2,
        Nat.mul_div_cancel _ (show (0:Nat) < 4 by norm_num)]
      omega
  | case4 a b c rest ih =>
      have ha : a < 256 := h a (by simp)
      have hb : b < 256 := h b (by simp)
      have hc : c < 256 := h c (by simp)
      have hrest : ∀ x ∈ rest, x < 256 := fun x hx => h x (by simp [hx])
      have h1 : a / 4 < 64 := by omega
      have h2 : a % 4 * 16 + b / 16 < 64 := by omega
      have h3 : b % 16 * 4 + c / 64 < 64 := by omega
      have h4 : c % 64 < 64 := by omega
      simp only [btoaGo, Nat.mod_eq_of_lt ha, Nat.mod_eq_of_lt hb, Nat.mod_eq_of_lt hc]
      simp [atobGo, b64Index_b64Char h1, b64Index_b64Char h2,
        b64Index_b64Char h3, b64Index_b64Char h4, ih hrest,
        b64Char_ne_pad h3, b64Char_ne_pad h4,
        (splitDigit (a % 4) (by norm_num) (show b / 16 < 16 by omega)).1,
        (splitDigit (a % 4) (by norm_num) (show b / 16 < 16 by omega)).2,
        (splitDigit (b % 16) (by norm_num) (show c / 64 < 4 by omega)).1,
        (splitDigit (b % 16) (by norm_num) (show c / 64 < 4 by omega)).2]
      omega

theorem btoaGo_mem (bs : List Nat) :
    ∀ ch ∈ btoaGo bs, ch = '=' ∨ ∃ n, n < 64 ∧ ch = b64Char n := by
  induction bs using btoaGo.induct with
  | case1 => intro ch hch; simp [btoaGo] at hch
  | case2 a =>
      intro ch hch
      simp only [btoaGo, List.mem_cons, List.not_mem_nil, or_false] at hch
      rcases hch with h | h | h | h
      · exact Or.inr ⟨_, by omega, h⟩
      · exact Or.inr ⟨_, by omega, h⟩
      · exact Or.inl h
      · exact Or.inl h
  | case3 a b =>
      intro ch hch
      simp only [btoaGo, List.mem_cons, List.not_mem_nil, or_false] at hch
      rcases hch with h | h | h | h
      · exact Or.inr ⟨_, by omega, h⟩
      · exact Or.inr ⟨_, by omega, h⟩
      · exact Or.inr ⟨_, by omega, h⟩
      · exact Or.inl h
  | case4 a b c rest ih =>
      intro ch hch
      simp only [btoaGo, List.mem_cons] at hch
      rcases hch with h | h | h | h | h
      · exact Or.inr ⟨_, by omega, h⟩
      · exact Or.inr ⟨_, by omega, h⟩
      · exact Or.inr ⟨_, by omega, h⟩
      · exact Or.inr ⟨_, by omega, h⟩
      · exact ih ch h

theorem b64Char_tame : ∀ n, n < 64 →
    isJsWhitespace (b64Char n) = false ∧ b64Char n ≠ '-' ∧ b64Char n ≠ '_' := by
  decide

/-- Every character `btoa` emits passes `normaliseBase64` untouched. -/
theorem btoaGo_tame (bs : List Nat) : ∀ ch ∈ btoaGo bs,
    isJsWhitespace ch = false ∧ ch ≠ '-' ∧ ch ≠ '_' := by
  intro ch hch
  rcases btoaGo_mem bs ch hch with h | ⟨n, hn, h⟩
  · subst h; refine ⟨rfl, by decide, by decide⟩
  · subst h; exact b64Char_tame n hn

theorem btoaGo_length (bs : List Nat) : (btoaGo bs).length % 4 = 0 := by
  induction bs using btoaGo.induct with
  | case1 => rfl
  | case2 a => simp [btoaGo]
  | case3 a b => simp [btoaGo]
  | case4 a b c rest ih =>
      simp only [btoaGo, List.length_cons]
      omega

/-- `normaliseBase64` is the identity on `btoa` output: no whitespace, no
URL-safe characters to fold back, and the length is already a multiple of
four so no padding is appended. -/
theorem normaliseBase64_btoa (bs : List Nat) : normaliseBase64 (btoa bs) = btoa bs := by
  unfold normaliseBase64 btoa
  have htl : (String.mk (btoaGo bs)).toList = btoaGo bs := rfl
  rw [htl]
  have hf : (btoaGo bs).filter (fun c => !isJsWhitespace c) = btoaGo bs := by
    apply List.filter_eq_self.mpr
    intro ch hch
    simp [(btoaGo_tame bs ch hch).1]
  rw [hf]
  have hm : (btoaGo bs).map
      (fun c => if c = '-' then '+' else if c = '_' then '/' else c) = btoaGo bs := by
    rw [show (btoaGo bs).map (fun c => if c = '-' then '+' else if c = '_' then '/' else c)
        = (btoaGo bs).map id from
      List.map_congr_left (fun ch hch => by
        simp [(btoaGo_tame bs ch hch).2.1, (btoaGo_tame bs ch hch).2.2])]
    exact List.map_id _
  rw [hm]
  simp [btoaGo_length bs]

/-- The transport text layer round-trips: decoding the `btoa` output of a
byte buffer recovers the buffer. -/
theorem base64ToUint8Array_btoa (bs : List Nat) (h : ∀ b ∈ bs, b < 256) :
    base64ToUint8Array (btoa bs) = some bs := by
  unfold base64ToUint8Array
  rw [normaliseBase64_btoa]
  exact atobGo_btoaGo bs h

theorem decVarint_encVarintGo (fuel n : Nat) (rest : List Nat) (h : n ≤ fuel) :
    decVarint (encVarintGo fuel n ++ rest) = some (n, rest) := by
  induction fuel generalizing n with
  | zero =>
      have : n = 0 := by omega
      subst this
      simp [encVarintGo, decVarint]
  | succ fuel ih =>
      by_cases hn : n < 128
      · simp [encVarintGo, decVarint, hn]
      · have hdiv : n / 128 ≤ fuel := by omega
        have hrec := ih (n / 128) hdiv
        simp only [encVarintGo, if_neg hn, List.cons_append, decVarint,
          if_neg (show ¬(n % 128 + 128 < 128) by omega), hrec]
        have : n % 128 + 128 - 128 + 128 * (n / 128) = n := by omega
        rw [this]

theorem decVarint_encVarint (n : Nat) (rest : List Nat) :
    decVarint (encVarint n ++ rest) = some (n, rest) :=
  decVarint_encVarintGo n n rest (Nat.le_refl n)

theorem encVarintGo_lt (fuel n : Nat) : ∀ b ∈ encVarintGo fuel n, b < 256 := by
  induction fuel generalizing n with
  | zero => intro b hb; simp [encVarintGo] at hb; omega
  | succ fuel ih =>
      intro b hb
      by_cases hn : n < 128
      · simp [encVarintGo, hn] at hb; omega
      · simp only [encVarintGo, if_neg hn, List.mem_cons] at hb
        rcases hb with h | h
        · omega
        · exact ih (n / 128) b h

theorem encVarint_lt (n : Nat) : ∀ b ∈ encVarint n, b < 256 :=
  encVarintGo_lt n n

theorem decChar_encChar (c : Char) (rest : List Nat) :
    decChar (encChar c ++ rest) = some (c, rest) := by
  simp [encChar, decChar, decVarint_encVarint, Char.ofNat_toNat]

theorem decCount_enc (enc : α → List Nat) (dec : List Nat → Option (α × List Nat))
    (xs : List α) (rest : List Nat)
    (helem : ∀ x ∈ xs, ∀ r, dec (enc x ++ r) = some (x, r)) :
    decCount dec xs.length ((xs.map enc).flatten ++ rest) = some (xs, rest) := by
  induction xs with
  | nil => simp [decCount]
  | cons x xs ih =>
      have hx := helem x (by simp)
      have hxs : ∀ y ∈ xs, ∀ r, dec (enc y ++ r) = some (y, r) :=
        fun y hy => helem y (by simp [hy])
      simp only [List.map_cons, List.flatten_cons, List.length_cons,
        List.append_assoc, decCount, hx ((xs.map enc).flatten ++ rest), ih hxs]

theorem decList_encList (enc : α → List Nat) (dec : List Nat → Option (α × List Nat))
    (xs : List α) (rest : List Nat)
    (helem : ∀ x ∈ xs, ∀ r, dec (enc x ++ r) = some (x, r)) :
    decList dec (encList enc xs ++ rest) = some (xs, rest) := by
  simp only [encList, decList, List.append_assoc, decVarint_encVarint]
  exact decCount_enc enc dec xs rest helem

theorem decString_encString (s : String) (rest : List Nat) :
    decString (encString s ++ rest) = some (s, rest) := by
  simp only [encString, decString,
    decList_encList encChar decChar s.toList rest (fun c _ r => decChar_encChar c r)]
  cases s
  rfl

theorem decOpt_encOpt (enc : α → List Nat) (dec : List Nat → Option (α × List Nat))
    (x : Option α) (rest : List Nat)
    (helem : ∀ y r, dec (enc y ++ r) = some (y, r)) :
    decOpt dec (encOpt enc x ++ rest) = some (x, rest) := by
  cases x with
  | none => simp [encOpt, decOpt]
  | some y => simp [encOpt, decOpt, helem y rest]

theorem decInt_encInt (i : Int) (rest : List Nat) :
    decInt (encInt i ++ rest) = some (i, rest) := by
  by_cases h : 0 ≤ i
  · simp only [encInt, if_pos h, decInt, decVarint_encVarint]
    rw [if_pos (by omega)]
    congr 1
    have : (2 * i.toNat / 2 : Nat) = i.toNat := by omega
    rw [this, Int.toNat_of_nonneg h]
  · simp only [encInt, if_neg h, decInt, decVarint_encVarint]
    have hpos : 0 < (-i).toNat := by omega
    rw [if_neg (by omega)]
    congr 1
    have : ((2 * (-i).toNat - 1 + 1) / 2 : Nat) = (-i).toNat := by omega
    rw [this, Int.toNat_of_nonneg (by omega : (0:Int) ≤ -i), Int.neg_neg]

theorem someBindStep (a : α) (f : α → Option β) : (some a >>= f) = f a := rfl

theorem decCodeRef_enc (c : CodeRef) (rest : List Nat) :
    decCodeRef (encCodeRef c ++ rest) = some (c, rest) := by
  simp [encCodeRef, decCodeRef, List.append_assoc, decString_encString]

theorem decVital_enc (v : WireVital) (rest : List Nat) :
    decVital (encVital v ++ rest) = some (v, rest) := by
  simp [encVital, decVital, List.append_assoc, decCodeRef_enc, decInt_encInt,
    decString_encString]

theorem decCondition_enc (c : WireCondition) (rest : List Nat) :
    decCondition (encCondition c ++ rest) = some (c, rest) := by
  simp [encCondition, decCondition, List.append_assoc, decCodeRef_enc,
    decString_encString]

theorem decEvent_enc (e : WireEvent) (rest : List Nat) :
    decEvent (encEvent e ++ rest) = some (e, rest) := by
  simp [encEvent, decEvent, List.append_assoc, decCodeRef_enc, decString_encString,
    decOpt_encOpt encInt decInt _ _ decInt_encInt,
    decOpt_encOpt encString decString _ _ decString_encString]

theorem decAllergy_enc (a : WireAllergy) (rest : List Nat) :
    decAllergy (encAllergy a ++ rest) = some (a, rest) := by
  simp [encAllergy, decAllergy, List.append_assoc, decCodeRef_enc,
    decString_encString]

theorem decStage_enc (s : WireStage) (rest : List Nat) :
    decStage (encStage s ++ rest) = some (s, rest) := by
  simp [encStage, decStage, List.append_assoc,
    decList_encList encVital decVital _ _ (fun v _ r => decVital_enc v r),
    decList_encList encCondition decCondition _ _ (fun c _ r => decCondition_enc c r),
    decList_encList encEvent decEvent _ _ (fun e _ r => decEvent_enc e r)]

theorem decPatient_enc (p : WirePatient) (rest : List Nat) :
    decPatient (encPatient p ++ rest) = some (p, rest) := by
  unfold decPatient encPatient
  simp only [List.append_assoc]
  rw [decString_encString]
  simp only [someBindStep]
  rw [decString_encString]
  simp only [someBindStep]
  rw [decString_encString]
  simp only [someBindStep]
  rw [decString_encString]
  simp only [someBindStep]
  rw [decString_encString]
  simp only [someBindStep]
  rw [decString_encString]
  simp only [someBindStep]
  rw [decOpt_encOpt encCodeRef decCodeRef _ _ decCodeRef_enc]
  simp only [someBindStep]
  rw [decOpt_encOpt encCodeRef decCodeRef _ _ decCodeRef_enc]
  simp only [someBindStep]
  rw [decOpt_encOpt encCodeRef decCodeRef _ _ decCodeRef_enc]
  simp only [someBindStep]
  rw [decOpt_encOpt encCodeRef decCodeRef _ _ decCodeRef_enc]
  simp only [someBindStep]
  rfl

theorem decBundleMetadata_enc (m : WireBundleMetadata) (rest : List Nat) :
    decBundleMetadata (encBundleMetadata m ++ rest) = some (m, rest) := by
  simp [encBundleMetadata, decBundleMetadata, List.append_assoc, decString_encString,
    decOpt_encOpt encString decString _ _ decString_encString]

theorem decPayloadFields_enc (p : Payload) (rest : List Nat) :
    decPayloadFields (serializePayload p ++ rest) = some (p, rest) := by
  unfold decPayloadFields serializePayload
  simp only [List.append_assoc]
  rw [decPatient_enc]
  simp only [someBindStep]
  rw [decStage_enc]
  simp only [someBindStep]
  rw [decStage_enc]
  simp only [someBindStep]
  rw [decStage_enc]
  simp only [someBindStep]
  rw [decStage_enc]
  simp only [someBindStep]
  rw [decStage_enc]
  simp only [someBindStep]
  rw [decStage_enc]
  simp only [someBindStep]
  rw [decStage_enc]
  simp only [someBindStep]
  rw [decStage_enc]
  simp only [someBindStep]
  rw [decStage_enc]
  simp only [someBindStep]
  rw [decList_encList encAllergy decAllergy _ _ (fun a _ r => decAllergy_enc a r)]
  simp only [someBindStep]
  rw [decOpt_encOpt encBundleMetadata decBundleMetadata _ _ decBundleMetadata_enc]
  simp only [someBindStep]
  rw [decOpt_encOpt encVarint decNat _ _ (fun y r => decVarint_encVarint y r)]
  simp only [someBindStep]
  rfl

theorem parsePayload_serialize (p : Payload) :
    parsePayload (serializePayload p) = some p := by
  have h := decPayloadFields_enc p []
  rw [List.append_nil] at h
  simp [parsePayload, h]

theorem tryDecode_eq_findSome (decode : List Nat → Option α) (buffers : List (List Nat)) :
    tryDecode decode buffers = buffers.findSome? decode := by
  induction buffers with
  | nil => rfl
  | cons b bs ih =>
      simp only [tryDecode, List.findSome?_cons, ih]
      cases decode b <;> rfl

/-- C1: for any coded-reference payload `P`, decoding the transport string
produced by encoding `P` (`decodeFragment` applied to the result of
`encodeToFragment`) yields a coded-reference payload equal to `P` in every
field (in particular in every field the claim does not exempt), tagged with
the current schema.  The DEFLATE pair enters as parameters with its defining
inversion property as a hypothesis; the result holds for any legacy decoder
since the current schema is tried first and succeeds. -/
theorem C1_decode_encode_roundtrip (deflate : List Nat → List Nat)
    (inflate inflateRaw : List Nat → Option (List Nat))
    (decodeLegacy : List Nat → Option Payload) (p : Payload)
    (hbytes : ∀ b ∈ deflate (serializePayload p), b < 256)
    (hinflate : inflate (deflate (serializePayload p)) = some (serializePayload p)) :
    decodeFragment inflate inflateRaw parsePayload decodeLegacy
      (encodeToFragment deflate p) = .ok (p, .coderef) := by
  unfold decodeFragment encodeToFragment
  rw [base64ToUint8Array_btoa _ hbytes]
  simp only [attemptInflations, hinflate, negotiateSchema, tryDecode,
    parsePayload_serialize p]

set_option maxRecDepth 10000 in
/-- C1, witness: the round trip evaluated on a concrete payload with a
concrete (identity) compression pair. -/
theorem C1_decode_encode_roundtrip_witness :
    decodeFragment (fun b => some b) (fun _ => none) parsePayload (fun _ => none)
      (encodeToFragment (fun b => b) samplePayload) = .ok (samplePayload, .coderef) :=
  C1_decode_encode_roundtrip (fun b => b) (fun b => some b) (fun _ => none)
    (fun _ => none) samplePayload (by decide) rfl

/-- C2, counterexample: schema negotiation is *not* buffer-major.  With a
first candidate decodable only under the legacy schema and a second
decodable only under the current schema, the code returns the current-schema
result from the second buffer, while the claimed per-buffer order would
return the legacy result from the first. -/
theorem C2_negotiation_counterexample :
    negotiateSchema (fun b => if b = [1] then some 10 else none)
        (fun b => if b = [0] then some 20 else none) [[0], [1]] =
      .ok (10, .coderef) ∧
    negotiateBufferMajor (fun b => if b = [1] then some 10 else none)
        (fun b => if b = [0] then some 20 else none) [[0], [1]] =
      .ok (20, .legacy) ∧
    negotiateSchema (fun b => if b = [1] then some 10 else none)
        (fun b => if b = [0] then some 20 else none) [[0], [1]] ≠
      negotiateBufferMajor (fun b => if b = [1] then some 10 else none)
        (fun b => if b = [0] then some 20 else none) [[0], [1]] := by
  refine ⟨rfl, rfl, ?_⟩
  intro h
  rw [show negotiateSchema (fun b => if b = [1] then some 10 else none)
        (fun b => if b = [0] then some 20 else none) [[0], [1]] =
      .ok (10, .coderef) from rfl] at h
  rw [show negotiateBufferMajor (fun b => if b = [1] then some 10 else none)
        (fun b => if b = [0] then some 20 else none) [[0], [1]] =
      .ok (20, .legacy) from rfl] at h
  simp at h

/-- C2, amended: schema negotiation is schema-major.  Every candidate buffer
is first tried against the current schema; only when all of them fail is the
legacy schema tried against every candidate; the first success is tagged
with its schema version, and when no candidate matches either schema an
error is raised. -/
theorem C2_negotiation_schema_major (decodeCurrent decodeLegacy : List Nat → Option α)
    (buffers : List (List Nat)) :
    negotiateSchema decodeCurrent decodeLegacy buffers =
      match buffers.findSome? decodeCurrent with
      | some result => .ok (result, .coderef)
      | none =>
          match buffers.findSome? decodeLegacy with
          | some result => .ok (result, .legacy)
          | none => .error .unableToDecode := by
  simp only [negotiateSchema, tryDecode_eq_findSome]

/-- C3, counterexample: when the header inflate succeeds, the raw-DEFLATE
inflate is never attempted and its candidate is not retained — the code
produces two candidates, not the claimed three. -/
theorem C3_candidates_counterexample :
    attemptInflations (fun _ => some [1]) (fun _ => some [2]) [0] = [[1], [0]] ∧
    attemptInflationsSpec (fun _ => some [1]) (fun _ => some [2]) [0] = [[1], [2], [0]] ∧
    attemptInflations (fun _ => some [1]) (fun _ => some [2]) [0] ≠
      attemptInflationsSpec (fun _ => some [1]) (fun _ => some [2]) [0] := by
  refine ⟨rfl, rfl, ?_⟩
  decide

/-- C3, amended: the candidate list is the header-inflate result when that
succeeds — in which case raw inflate is never attempted — otherwise the
raw-inflate result when that succeeds, always followed by the raw bytes as
the final fallback candidate; at most two candidates are retained. -/
theorem C3_candidates_amended (inflate inflateRaw : List Nat → Option (List Nat))
    (bytes : List Nat) :
    attemptInflations inflate inflateRaw bytes =
      (match inflate bytes with
       | some inflated => [inflated]
       | none => (inflateRaw bytes).toList) ++ [bytes] ∧
    (attemptInflations inflate inflateRaw bytes).length ≤ 2 := by
  cases hinf : inflate bytes <;> cases hraw : inflateRaw bytes <;>
    simp [attemptInflations, hinf, hraw]

/-- C8, counterexample: the transport string is produced by plain `btoa`,
not a Base64URL encoder; for a compression output whose bytes force the
high alphabet indices and padding, the returned string contains both `'/'`
and `'='`. -/
theorem C8_transport_counterexample :
    isBase64UrlNoPad (encodeToFragment (fun _ => [255, 255, 255, 255]) samplePayload)
      = false ∧
    '/' ∈ (encodeToFragment (fun _ => [255, 255, 255, 255]) samplePayload).toList ∧
    '=' ∈ (encodeToFragment (fun _ => [255, 255, 255, 255]) samplePayload).toList := by
  refine ⟨rfl, ?_, ?_⟩ <;> decide

/-- C8, amended: the transport string is the standard RFC 4648 section-4
Base64 encoding (alphabet `A–Z a–z 0–9 + /`, padded with `'='`) of the
DEFLATE-compressed serialized payload: the repository's own base64 decoder
recovers exactly the compressed bytes from it, and every character of it is
a standard-alphabet character or the padding character. -/
theorem C8_transport_standard_base64 (deflate : List Nat → List Nat) (p : Payload)
    (hbytes : ∀ b ∈ deflate (serializePayload p), b < 256) :
    base64ToUint8Array (encodeToFragment deflate p) =
      some (deflate (serializePayload p)) ∧
    ∀ ch ∈ (encodeToFragment deflate p).toList, ch ∈ base64Alphabet ∨ ch = '=' := by
  constructor
  · exact base64ToUint8Array_btoa _ hbytes
  · intro ch hch
    have htl : (encodeToFragment deflate p).toList =
        btoaGo (deflate (serializePayload p)) := rfl
    rw [htl] at hch
    rcases btoaGo_mem _ ch hch with h | ⟨n, hn, h⟩
    · exact Or.inr h
    · subst h
      exact Or.inl (by
        have hlen : n < base64Alphabet.length := by
          rw [show base64Alphabet.length = 64 from rfl]
          exact hn
        simp [b64Char, List.getD_eq_getElem?_getD, List.getElem?_eq_getElem hlen])

set_option maxRecDepth 10000 in
/-- C8, amended, witness: evaluated with the identity in the compressor
slot on the concrete sample payload. -/
theorem C8_transport_standard_base64_witness :
    base64ToUint8Array (encodeToFragment (fun b => b) samplePayload) =
      some ((fun (b : List Nat) => b) (serializePayload samplePayload)) ∧
    ∀ ch ∈ (encodeToFragment (fun b => b) samplePayload).toList,
      ch ∈ base64Alphabet ∨ ch = '=' :=
  C8_transport_standard_base64 (fun b => b) samplePayload (by decide)

theorem markByType_map_item (cur : DateCursors) (l : List MISTTagged) :
    (markByType cur l).map MISTTagged.item = l.map MISTTagged.item := by
  induction l generalizing cur with
  | nil => rfl
  | cons t rest ih =>
      by_cases h : (extractTimestamp t.item).map dateKey ≠ getCursor cur t.dataType
      · simp [markByType, if_pos h, ih]
      · simp [markByType, if_neg h, ih]

theorem markNoTimestamp_map_item (l : List MISTTagged) :
    (markNoTimestamp l).map MISTTagged.item = l.map MISTTagged.item := by
  cases l with
  | nil => rfl
  | cons t rest => simp [markNoTimestamp, List.map_map, Function.comp_def]

theorem mem_mistWithTimestamps_isSome (vitals conditions events : List MISTItem)
    (x : MISTTagged) (hx : x ∈ mistWithTimestamps vitals conditions events) :
    (extractTimestamp x.item).isSome := by
  exact (List.mem_filter.mp hx).2

theorem mem_mistWithoutTimestamps_isNone (vitals conditions events : List MISTItem)
    (x : MISTTagged) (hx : x ∈ mistWithoutTimestamps vitals conditions events) :
    extractTimestamp x.item = none := by
  have := (List.mem_filter.mp hx).2
  simp only [Bool.not_eq_true'] at this
  exact Option.not_isSome_iff_eq_none.mp (by simp [this])

theorem mem_mistSorted_isSome (vitals conditions events : List MISTItem)
    (x : MISTTagged) (hx : x ∈ mistSorted vitals conditions events) :
    (extractTimestamp x.item).isSome := by
  apply mem_mistWithTimestamps_isSome vitals conditions events x
  exact (List.perm_insertionSort mistLE _).mem_iff.mp hx

/-- C5: for any input order of the per-stage vitals, conditions and events
arrays, the grouping engine's output is non-decreasing by extracted
timestamp among the timestamped items, and every untimestamped item appears
after all timestamped items. -/
theorem C5_chronological_order (vitals conditions events : List MISTItem) :
    (createMISTChronologicalRows vitals conditions events).Pairwise chronOrder := by
  unfold createMISTChronologicalRows
  rw [List.pairwise_append]
  refine ⟨?_, ?_, ?_⟩
  · -- the marked timestamped prefix is sorted and all-timestamped
    have hsorted : (mistSorted vitals conditions events).Pairwise mistLE :=
      List.sorted_insertionSort mistLE _
    have hsp : (mistSorted vitals conditions events).Pairwise chronOrder := by
      refine hsorted.imp_of_mem ?_
      intro a b ha hb hab
      have hsa := mem_mistSorted_isSome vitals conditions events a ha
      have hsb := mem_mistSorted_isSome vitals conditions events b hb
      constructor
      · intro ta tb hta htb
        unfold mistLE at hab
        rw [hta, htb] at hab
        simpa [Option.getD] using hab
      · intro hnone
        rw [hnone] at hsa
        simp at hsa
    have h1 : (List.map MISTTagged.item
        (mistSorted vitals conditions events)).Pairwise chronOrderI := by
      rw [List.pairwise_map]
      exact hsp
    have h2 : (List.map MISTTagged.item (markByType ⟨none, none, none⟩
        (mistSorted vitals conditions events))).Pairwise chronOrderI := by
      rw [markByType_map_item]
      exact h1
    rw [List.pairwise_map] at h2
    exact h2
  · -- every pair of untimestamped items is related (both sides vacuous)
    apply List.pairwise_of_forall_mem_list
    intro a ha b hb
    have hmem : a.item ∈ (markNoTimestamp
        (mistWithoutTimestamps vitals conditions events)).map MISTTagged.item :=
      List.mem_map_of_mem MISTTagged.item ha
    rw [markNoTimestamp_map_item] at hmem
    obtain ⟨a0, ha0, ha0i⟩ := List.mem_map.mp hmem
    have hbm : b.item ∈ (markNoTimestamp
        (mistWithoutTimestamps vitals conditions events)).map MISTTagged.item :=
      List.mem_map_of_mem MISTTagged.item hb
    rw [markNoTimestamp_map_item] at hbm
    obtain ⟨b0, hb0, hb0i⟩ := List.mem_map.mp hbm
    have hna : extractTimestamp a.item = none := by
      rw [← ha0i]
      exact mem_mistWithoutTimestamps_isNone vitals conditions events a0 ha0
    have hnb : extractTimestamp b.item = none := by
      rw [← hb0i]
      exact mem_mistWithoutTimestamps_isNone vitals conditions events b0 hb0
    exact ⟨fun ta tb hta _ => absurd hta (by simp [hna]), fun _ => hnb⟩
  · -- no untimestamped item precedes a timestamped one
    intro a ha b hb
    have hmem : a.item ∈ (markByType ⟨none, none, none⟩
        (mistSorted vitals conditions events)).map MISTTagged.item :=
      List.mem_map_of_mem MISTTagged.item ha
    rw [markByType_map_item] at hmem
    obtain ⟨a0, ha0, ha0i⟩ := List.mem_map.mp hmem
    have hsa : (extractTimestamp a.item).isSome := by
      rw [← ha0i]
      exact mem_mistSorted_isSome vitals conditions events a0 ha0
    have hbm : b.item ∈ (markNoTimestamp
        (mistWithoutTimestamps vitals conditions events)).map MISTTagged.item :=
      List.mem_map_of_mem MISTTagged.item hb
    rw [markNoTimestamp_map_item] at hbm
    obtain ⟨b0, hb0, hb0i⟩ := List.mem_map.mp hbm
    have hnb : extractTimestamp b.item = none := by
      rw [← hb0i]
      exact mem_mistWithoutTimestamps_isNone vitals conditions events b0 hb0
    refine ⟨fun ta tb _ htb => absurd htb (by simp [hnb]), fun hna => ?_⟩
    rw [hna] at hsa
    simp at hsa

theorem getCursor_setCursor (cur : DateCursors) (ty ty' : MISTType)
    (v : Option (Nat × Nat × Nat)) :
    getCursor (setCursor cur ty v) ty' = if ty' = ty then v else getCursor cur ty' := by
  cases ty <;> cases ty' <;> simp [getCursor, setCursor]

theorem setCursor_self (cur : DateCursors) (ty : MISTType) :
    setCursor cur ty (getCursor cur ty) = cur := by
  cases cur
  cases ty <;> simp [getCursor, setCursor]

theorem lastDateOfType_cons (cur : DateCursors) (ty : MISTType) (t : MISTTagged)
    (l : List MISTTagged) :
    lastDateOfType cur ty (t :: l) =
      lastDateOfType (setCursor cur t.dataType (itemDate t)) ty l := by
  by_cases hty : t.dataType = ty
  · have hpt : (decide (t.dataType = ty)) = true := by simp [hty]
    cases hfl : l.filter (fun u => decide (u.dataType = ty)) with
    | nil =>
        simp only [lastDateOfType, List.filter_cons, hpt, if_true, hfl,
          List.getLast?_singleton]
        rw [getCursor_setCursor, if_pos hty.symm]
        rfl
    | cons u us =>
        simp only [lastDateOfType, List.filter_cons, hpt, if_true, hfl,
          List.getLast?_cons_cons]
        cases hgl : (u :: us).getLast? with
        | none => simp at hgl
        | some w => rfl
  · have hne : ty ≠ t.dataType := fun hh => hty hh.symm
    cases hfl : l.filter (fun u => decide (u.dataType = ty)) with
    | nil =>
        simp only [lastDateOfType, List.filter_cons]
        rw [if_neg (by simp [hty]), hfl]
        rw [getCursor_setCursor, if_neg hne]
    | cons u us =>
        simp only [lastDateOfType, List.filter_cons]
        rw [if_neg (by simp [hty]), hfl]
        cases hgl : (u :: us).getLast? with
        | none => simp at hgl
        | some w => rfl

theorem markByType_length (cur : DateCursors) (l : List MISTTagged) :
    (markByType cur l).length = l.length := by
  induction l generalizing cur with
  | nil => rfl
  | cons t rest ih =>
      by_cases h : (extractTimestamp t.item).map dateKey ≠ getCursor cur t.dataType
      · simp [markByType, if_pos h, ih]
      · simp [markByType, if_neg h, ih]

/-- The marking pass, characterised against the claim's reading: the flag of
the `i`-th output item records whether its calendar date differs from the
date of the last same-type item in the preceding prefix (falling back to the
incoming cursor). -/
theorem markByType_get_spec (l : List MISTTagged) (cur : DateCursors) (i : Nat)
    (hi : i < l.length) :
    ((markByType cur l).get ⟨i, by rw [markByType_length]; exact hi⟩).isFirstDisplayedInRow
      = decide (itemDate (l.get ⟨i, hi⟩) ≠
          lastDateOfType cur (l.get ⟨i, hi⟩).dataType (l.take i)) := by
  induction l generalizing cur i with
  | nil => exact absurd hi (by simp)
  | cons t rest ih =>
      cases i with
      | zero =>
          by_cases h : (extractTimestamp t.item).map dateKey ≠ getCursor cur t.dataType
          · simp [markByType, if_pos h, lastDateOfType, itemDate, h]
          · simp [markByType, if_neg h, lastDateOfType, itemDate]
            simpa [itemDate] using h
      | succ i =>
          have hi' : i < rest.length := by simpa using hi
          by_cases h : (extractTimestamp t.item).map dateKey ≠ getCursor cur t.dataType
          · have hmk : markByType cur (t :: rest) =
                { t with isFirstDisplayedInRow := true } ::
                  markByType (setCursor cur t.dataType
                    ((extractTimestamp t.item).map dateKey)) rest := by
              simp [markByType, h]
            have hstep := ih (setCursor cur t.dataType
              ((extractTimestamp t.item).map dateKey)) i hi'
            rw [List.get_eq_getElem, List.getElem_of_eq hmk (by
              simp [markByType_length]
              omega), List.getElem_cons_succ]
            simp only [List.get_cons_succ, List.take_succ_cons, lastDateOfType_cons]
            simp only [List.get_eq_getElem, itemDate] at hstep ⊢
            exact hstep
          · have heq : (extractTimestamp t.item).map dateKey = getCursor cur t.dataType := by
              by_contra hc
              exact h hc
            have hmk : markByType cur (t :: rest) =
                { t with isFirstDisplayedInRow := false } :: markByType cur rest := by
              simp [markByType, h]
            have hstep := ih cur i hi'
            rw [List.get_eq_getElem, List.getElem_of_eq hmk (by
              simp [markByType_length]
              omega), List.getElem_cons_succ]
            simp only [List.get_cons_succ, List.take_succ_cons, lastDateOfType_cons]
            rw [show setCursor cur t.dataType (itemDate t) = cur from by
              rw [itemDate, heq, setCursor_self]]
            simp only [List.get_eq_getElem, itemDate] at hstep ⊢
            exact hstep

theorem createMIST_length_bound (vitals conditions events : List MISTItem) (i : Nat)
    (hi : i < (mistSorted vitals conditions events).length) :
    i < (createMISTChronologicalRows vitals conditions events).length := by
  unfold createMISTChronologicalRows
  rw [List.length_append, markByType_length]
  omega

set_option maxRecDepth 10000 in
/-- C4, counterexample: the marking pass keys on `formatDateForComparison`'s
two-digit-year string, not on the calendar date.  For two same-type vitals
on 2024-01-15 and 2124-01-15 — different calendar dates, both mapping to
`"15 Jan 24"` — the later item is left unmarked, although its calendar
date (ignoring time-of-day) differs from the last calendar date seen for
items of its type. -/
theorem C4_row_first_counterexample :
    calendarDate 4860986400000 ≠ calendarDate 1705312800000 ∧
    (mistSorted c4cVitals [] []).map (fun t => extractTimestamp t.item) =
      [some 1705312800000, some 4860986400000] ∧
    ((createMISTChronologicalRows c4cVitals [] []).get
        ⟨1, by decide⟩).isFirstDisplayedInRow = false := by
  refine ⟨by decide, by decide, by decide⟩

/-- C4, amended: in the temporal grouping engine, a timestamped output
item (the `i`-th of the chronologically sorted timestamped items) is
marked `isFirstDisplayedInRow = true` if and only if its date comparison
key — day of month, month, and two-digit year, the equivalence kernel of
`formatDateForComparison`'s `"D Mon YY"` string — differs from the key of
the last earlier item of the same data type (each of vitals, conditions
and events keeping an independent cursor, initially empty).  This is the
claim's per-type independence and "differs from the last seen" shape, but
keyed on the two-digit-year string: calendar dates exactly 100 years apart
share a key and do not re-mark (see the counterexample). -/
theorem C4_row_first_iff (vitals conditions events : List MISTItem) (i : Nat)
    (hi : i < (mistSorted vitals conditions events).length) :
    (((createMISTChronologicalRows vitals conditions events).get
        ⟨i, createMIST_length_bound vitals conditions events i hi⟩).isFirstDisplayedInRow
      = true) ↔
      itemDate ((mistSorted vitals conditions events).get ⟨i, hi⟩) ≠
        lastDateOfType ⟨none, none, none⟩
          ((mistSorted vitals conditions events).get ⟨i, hi⟩).dataType
          ((mistSorted vitals conditions events).take i) := by
  have hb : i < (markByType ⟨none, none, none⟩
      (mistSorted vitals conditions events)).length := by
    rw [markByType_length]
    exact hi
  have hget : ((createMISTChronologicalRows vitals conditions events).get
      ⟨i, createMIST_length_bound vitals conditions events i hi⟩) =
      ((markByType ⟨none, none, none⟩ (mistSorted vitals conditions events)).get
        ⟨i, hb⟩) := by
    unfold createMISTChronologicalRows
    simp [List.getElem_append_left hb]
  rw [hget, markByType_get_spec (mistSorted vitals conditions events) ⟨none, none, none⟩ i hi]
  simp [decide_eq_true_iff]

set_option maxRecDepth 4000 in
/-- C4, witness: one vital and one condition sharing the calendar date, with
no earlier same-date items of their own type; the condition (output index 1)
satisfies the row-first equivalence, and both items are in fact marked. -/
theorem C4_row_first_iff_witness :
    1 < (mistSorted mistSampleVitals mistSampleConditions []).length ∧
    ((((createMISTChronologicalRows mistSampleVitals mistSampleConditions []).get
        ⟨1, createMIST_length_bound mistSampleVitals mistSampleConditions [] 1
          (by decide)⟩).isFirstDisplayedInRow = true) ↔
      itemDate ((mistSorted mistSampleVitals mistSampleConditions []).get
          ⟨1, by decide⟩) ≠
        lastDateOfType ⟨none, none, none⟩
          ((mistSorted mistSampleVitals mistSampleConditions []).get
            ⟨1, by decide⟩).dataType
          ((mistSorted mistSampleVitals mistSampleConditions []).take 1)) :=
  ⟨by decide, C4_row_first_iff mistSampleVitals mistSampleConditions [] 1 (by decide)⟩

theorem listMax_spec (l : List Int) (m : Int) (h : listMax l = some m) :
    m ∈ l ∧ ∀ x ∈ l, x ≤ m := by
  induction l generalizing m with
  | nil => simp [listMax] at h
  | cons x xs ih =>
      cases hxs : listMax xs with
      | none =>
          rw [listMax, hxs] at h
          cases h
          have hnil : xs = [] := by
            cases xs with
            | nil => rfl
            | cons y ys =>
                rw [listMax] at hxs
                cases hyy : listMax ys <;> simp [hyy] at hxs
          subst hnil
          simp
      | some m0 =>
          rw [listMax, hxs] at h
          cases h
          obtain ⟨hmem, hle⟩ := ih m0 hxs
          constructor
          · rcases le_total x m0 with hx | hx
            · simp only [List.mem_cons]
              exact Or.inr (by rwa [max_eq_right hx])
            · simp [max_eq_left hx]
          · intro y hy
            rcases List.mem_cons.mp hy with rfl | hy
            · exact le_max_left _ _
            · exact le_trans (hle y hy) (le_max_right _ _)

theorem filterMapLengthEq (f : α → Option β) (p : α → Bool)
    (h : ∀ x, (f x).isSome = p x) (l : List α) :
    (l.filterMap f).length = (l.filter p).length := by
  induction l with
  | nil => rfl
  | cons x xs ih =>
      cases hf : f x with
      | none =>
          have hp : p x = false := by rw [← h x, hf]; rfl
          simp [List.filterMap_cons, List.filter_cons, hf, hp, ih]
      | some y =>
          have hp : p x = true := by rw [← h x, hf]; rfl
          simp [List.filterMap_cons, List.filter_cons, hf, hp, ih]

/-- C6: the claim holds on the non-bundle path only — converting a bundle
whose patient resource has no blood-group extension produces a patient
whose `blood_group` is absent, not the fixed default; the default CodeRef
`sct:278152006` exists in the code (`bloodGroupFallback`) but the bundle
path returns before reaching it. -/
theorem C6_bundle_blood_group_absent :
    (convertFhirBundleToCodeRef "2024-01-02T00:00:00Z" 1704153600000 c6Bundle).map
        (fun p => p.patient.blood_group) = .ok none ∧
    convertFhirToCodeRefOnBundle "2024-01-02T00:00:00Z" 1704153600000 c6Bundle =
      convertFhirBundleToCodeRef "2024-01-02T00:00:00Z" 1704153600000 c6Bundle ∧
    bloodGroupFallback none = some ⟨"sct", some "278152006"⟩ :=
  ⟨rfl, rfl, rfl⟩

/-- C10: for a bundle containing a clinical resource whose care-stage
extension value is a non-empty string outside the recognised label map,
`normaliseCareStageValue` returns the raw trimmed string, the payload has
no bucket under that key, and the whole conversion aborts with a
`TypeError` instead of excluding the resource. -/
theorem C10_unknown_stage_aborts :
    normaliseCareStageValue (some "hospital") = some "hospital" ∧
    stageGet c10PayloadProbe "hospital" = none ∧
    convertFhirBundleToCodeRef "2024-01-02T00:00:00Z" 1704153600000 c10Bundle =
      .error .typeError :=
  ⟨rfl, rfl, rfl⟩

/-- C7, counterexample: a stage vitals entry lacking a code is silently
dropped by `normaliseCodeRefVitalsRaw` — the output holds only the coded
item and contains no `Code #<n>` placeholder. -/
theorem C7_dropped_not_placeholder :
    (normaliseCodeRefVitalsRaw (fun _ code => code) c7Entries).length = 1 ∧
    (normaliseCodeRefVitalsRaw (fun _ code => code) c7Entries).map
        (fun v => v.code.ref) = ["sct:123"] ∧
    ∀ v ∈ normaliseCodeRefVitalsRaw (fun _ code => code) c7Entries,
      v.code.code ≠ "Code #0" ∧ v.code.code ≠ "Code #1" := by
  refine ⟨rfl, rfl, ?_⟩
  decide

/-- C7, amended: a coded-reference stage item lacking a code is silently
dropped (mapped to `null` and filtered out) while every other item is still
converted, in order; the `Code #<n>` placeholder arises only when
`normaliseCodeRef` is called with a fallback index, which the
coded-reference stage normalisers never pass. -/
theorem C7_dropped_amended (resolve : String → String → String)
    (entries : List (Option CRRawVitalEntry)) :
    normaliseCodeRefVitalsRaw resolve entries =
      entries.filterMap (fun item =>
        item.bind (fun it =>
          it.code.map (fun _ =>
            let code := normaliseCodeRef it.code none
            { code := code, description := resolve code.system code.code,
              value := it.value, unit := it.unit, dose := none,
              route := it.route, time := it.time, onset := none }))) ∧
    (normaliseCodeRefVitalsRaw resolve entries).length =
      (entries.filter (fun item => (item.bind (·.code)).isSome)).length ∧
    normaliseCodeRef none (some 7) =
      { system := "", code := "Code #7", ref := "Code #7" } := by
  refine ⟨?_, ?_, rfl⟩
  · induction entries with
    | nil => rfl
    | cons item rest ih =>
        cases item with
        | none => simpa [normaliseCodeRefVitalsRaw, List.filterMap_cons] using ih
        | some it =>
            cases hc : it.code with
            | none =>
                simpa [normaliseCodeRefVitalsRaw, List.filterMap_cons, hc] using ih
            | some c =>
                simpa [normaliseCodeRefVitalsRaw, List.filterMap_cons, hc] using ih
  · unfold normaliseCodeRefVitalsRaw
    rw [show (entries.map (fun item =>
        match item with
        | none => none
        | some it =>
            match it.code with
            | none => none
            | some _ =>
                let code := normaliseCodeRef it.code none
                (some { code := code, description := resolve code.system code.code,
                        value := it.value, unit := it.unit, dose := none,
                        route := it.route, time := it.time, onset := none }
                  : Option CRDisplayItem))).filterMap id
        = entries.filterMap (fun item =>
            match item with
            | none => none
            | some it =>
                match it.code with
                | none => none
                | some _ =>
                    let code := normaliseCodeRef it.code none
                    some { code := code, description := resolve code.system code.code,
                           value := it.value, unit := it.unit, dose := none,
                           route := it.route, time := it.time, onset := none })
      from by rw [List.filterMap_map]; rfl]
    apply filterMapLengthEq
    intro x
    cases x with
    | none => rfl
    | some it => cases hc : it.code <;> simp [hc]

/-- C9: the summary timestamp is the latest valid timestamp among the
role-2 stage's vitals times, conditions onsets and events times advanced by
exactly 15 minutes; when role 2 contributes no timestamped item it is the
payload-level `t`, read as epoch minutes (`t × 60000` ms) for a numeric `t`
and as a date-string parse for a string `t`. -/
theorem C9_summary_timestamp (payload : SummaryPayload) :
    (∀ s, payload.r2 = some s → ∀ m, listMax (r2AllTimes s) = some m →
      m ∈ r2AllTimes s ∧ (∀ x ∈ r2AllTimes s, x ≤ m) ∧
        buildSummaryTimestamp payload = some (m + 15 * 60000)) ∧
    ((payload.r2 = none ∨ ∃ s, payload.r2 = some s ∧ r2AllTimes s = []) →
      buildSummaryTimestamp payload =
        match payload.t with
        | .num n => if jsDateValid (n * 60000) then some (n * 60000) else none
        | .str parsed => parsed
        | .absent => none) := by
  constructor
  · intro s hs m hm
    obtain ⟨hmem, hle⟩ := listMax_spec (r2AllTimes s) m hm
    refine ⟨hmem, hle, ?_⟩
    simp [buildSummaryTimestamp, hs, hm]
  · intro hcase
    rcases hcase with hnone | ⟨s, hs, hempty⟩
    · simp [buildSummaryTimestamp, hnone]
    · simp [buildSummaryTimestamp, hs, hempty, listMax]

/-- C9, witness: a role-2 stage with two timestamped items; the summary is
the larger timestamp advanced by 15 minutes. -/
theorem C9_summary_timestamp_witness :
    listMax (r2AllTimes c9Stage) = some 1705316400000 ∧
    (1705316400000 ∈ r2AllTimes c9Stage ∧
      (∀ x ∈ r2AllTimes c9Stage, x ≤ 1705316400000) ∧
      buildSummaryTimestamp c9Payload = some (1705316400000 + 15 * 60000)) :=
  ⟨rfl, (C9_summary_timestamp c9Payload).1 c9Stage rfl 1705316400000 rfl⟩

end NFC
